import Mathlib

set_option maxRecDepth 1000000

/-
Verification of the Scala code-generation backend of wit-bindgen (crates/scala).

The definitions below are a shallow embedding of the Rust sources:
  - crates/scala/src/context.rs     (casing, keywords, docs, type and typedef rendering)
  - crates/scala/src/annotations.rs (annotation emitters, function signatures)
  - crates/scala/src/interface.rs   (interface assembly, package/file paths)
  - crates/scala/src/resource.rs    (resource trait + companion rendering)
  - crates/scala/src/world.rs       (world files)
  - crates/scala/src/lib.rs         (generator state flags)

Rust panics (panic!, expect, unreachable!, arena indexing) are modelled as
Except.error; everything else is a pure function.  Strings are Lean Strings;
all character-level work is done on the underlying List Char so that every
definition is executable and kernel-reducible.  The recursive type renderer
carries a fuel parameter to make the (possibly cyclic) schema-graph recursion
structural; all claims hold for every fuel value that lets the recursion
complete, and the fuel shows up only where the source function is recursive.
-/

namespace Wit

/-! ## Generic list-of-chars helpers (models of Rust str utilities) -/

/-- Model of Rust `str::split` on a character predicate: split a character list
at every character satisfying `p`, dropping the separators and keeping empty
segments (as Rust does).  The result is always non-empty. -/
def splitOnPred (p : Char → Bool) : List Char → List (List Char)
  | [] => [[]]
  | c :: cs =>
    let r := splitOnPred p cs
    if p c then [] :: r
    else
      match r with
      | h :: t => (c :: h) :: t
      | [] => [[c]]

/-- Model of Rust `Vec::join` on strings. -/
def joinSep (sep : String) : List String → String
  | [] => ""
  | [x] => x
  | x :: xs => x ++ sep ++ joinSep sep xs

/-- Concatenation of a list of strings (models repeated `write!`). -/
def strConcat : List String → String
  | [] => ""
  | s :: ss => s ++ strConcat ss

/-- `p` is a leading part of `s` (models Rust `str::starts_with`). -/
def startsWithStr (p s : String) : Bool :=
  p.data.isPrefixOf s.data

/-- `needle` occurs as a contiguous substring of `hay` (models `str::contains`). -/
def containsSub (needle : List Char) : List Char → Bool
  | [] => needle.isEmpty
  | c :: cs => needle.isPrefixOf (c :: cs) || containsSub needle cs

/-- Strip one trailing carriage return (the `\r` of a `\r\n` line ending). -/
def stripCR (w : List Char) : List Char :=
  match w.getLast? with
  | some '\r' => w.dropLast
  | _ => w

/-- Model of Rust `str::lines` (on trimmed input this is exact; in general the
final line keeps a lone trailing `\r` in Rust, which never reaches this code
because every caller first trims or controls the input). -/
def rustLinesChars (l : List Char) : List (List Char) :=
  if l = [] then []
  else
    (match (splitOnPred (fun c => c == '\n') l).getLast? with
     | some [] => (splitOnPred (fun c => c == '\n') l).dropLast
     | _ => splitOnPred (fun c => c == '\n') l).map stripCR

def rustLines (s : String) : List String :=
  (rustLinesChars s.data).map String.mk

/-- Newline split of produced output, dropping a final empty piece (how the
assembly loops in interface.rs/world.rs see the lines of a fragment, which
never contains `\r`). -/
def linesPlain (s : String) : List String :=
  (if s.data = [] then []
   else
     match (splitOnPred (fun c => c == '\n') s.data).getLast? with
     | some [] => (splitOnPred (fun c => c == '\n') s.data).dropLast
     | _ => splitOnPred (fun c => c == '\n') s.data).map String.mk

/-- Model of Rust `str::trim` (ASCII whitespace; the identifiers and docs this
generator handles are ASCII). -/
def rustTrim (s : String) : String :=
  String.mk (((s.data.dropWhile Char.isWhitespace).reverse.dropWhile Char.isWhitespace).reverse)

/-! ## Name caser (context.rs casing methods, via the heck crate's algorithm) -/

/-- ASCII uppercase→lowercase pairs, used to model Rust char case mapping
without `Char.ofNat` arithmetic. -/
def asciiLowerPairs : List (Char × Char) :=
  [('A', 'a'), ('B', 'b'), ('C', 'c'), ('D', 'd'), ('E', 'e'), ('F', 'f'),
   ('G', 'g'), ('H', 'h'), ('I', 'i'), ('J', 'j'), ('K', 'k'), ('L', 'l'),
   ('M', 'm'), ('N', 'n'), ('O', 'o'), ('P', 'p'), ('Q', 'q'), ('R', 'r'),
   ('S', 's'), ('T', 't'), ('U', 'u'), ('V', 'v'), ('W', 'w'), ('X', 'x'),
   ('Y', 'y'), ('Z', 'z')]

def asciiToLower (c : Char) : Char :=
  ((asciiLowerPairs.find? (fun p => p.1 == c)).map Prod.snd).getD c

def asciiToUpper (c : Char) : Char :=
  ((asciiLowerPairs.find? (fun p => p.2 == c)).map Prod.fst).getD c

/-- The scanning mode of heck's `transform`: what the previous cased character
of the current word was. -/
inductive WordMode
  | boundary
  | lowercase
  | uppercase
deriving DecidableEq

/-- The mode after scanning character `c`, assuming no boundary at `c`. -/
def nextModeOf (mode : WordMode) (c : Char) : WordMode :=
  if c.isLower then WordMode.lowercase
  else if c.isUpper then WordMode.uppercase
  else mode

/-- heck's word-boundary scan inside one alphanumeric segment.  `acc` holds the
characters of the current word so far, `c` the character being examined, and
the remaining characters follow. -/
def splitCaseAux : WordMode → List Char → Char → List Char → List (List Char)
  | _, acc, c, [] => [acc ++ [c]]
  | mode, acc, c, next :: rest =>
    if nextModeOf mode c = WordMode.lowercase ∧ next.isUpper then
      (acc ++ [c]) :: splitCaseAux WordMode.boundary [] next rest
    else if mode = WordMode.uppercase ∧ c.isUpper ∧ next.isLower then
      acc :: splitCaseAux WordMode.boundary [c] next rest
    else
      splitCaseAux (nextModeOf mode c) (acc ++ [c]) next rest

def splitCase : List Char → List (List Char)
  | [] => []
  | c :: cs => splitCaseAux WordMode.boundary [] c cs

/-- The word list heck extracts from an identifier: split at non-alphanumeric
characters, then at case boundaries inside each segment. -/
def caseWords (l : List Char) : List (List Char) :=
  (splitOnPred (fun c => !c.isAlphanum) l).flatMap splitCase

def lowerWord (w : List Char) : List Char := w.map asciiToLower

def capitalizeWord : List Char → List Char
  | [] => []
  | c :: cs => asciiToUpper c :: cs.map asciiToLower

/-- heck `ToSnakeCase`. -/
def toSnakeCaseRaw (s : String) : String :=
  joinSep "_" ((caseWords s.data).map (fun w => String.mk (lowerWord w)))

/-- heck `ToPascalCase`. -/
def toPascalCaseRaw (s : String) : String :=
  String.mk ((caseWords s.data).flatMap capitalizeWord)

/-- heck `ToLowerCamelCase`. -/
def toLowerCamelCaseRaw (s : String) : String :=
  match caseWords s.data with
  | [] => ""
  | w :: ws => String.mk (lowerWord w ++ ws.flatMap capitalizeWord)

/-- The reserved-word table of `ScalaKeywords::new` in context.rs, verbatim. -/
def scalaKeywords : List String :=
  ["abstract", "case", "catch", "class", "def", "do", "else", "extends",
   "false", "final", "finally", "for", "forSome", "if", "implicit",
   "import", "lazy", "match", "new", "null", "object", "override",
   "package", "private", "protected", "return", "sealed", "super", "this",
   "throw", "trait", "true", "try", "type", "val", "var", "while", "with",
   "yield",
   "enum", "export", "given", "then",
   "as", "derives", "end", "extension", "infix", "inline", "opaque",
   "open", "transparent", "using",
   "_", ":", "=", "=>", "<-", "<:", "<%", ">:", "#", "@",
   "equals", "hashCode", "toString", "wait", "notify", "notifyAll",
   "clone", "finalize", "getClass"]

def isKeyword (s : String) : Bool := scalaKeywords.contains s

/-- `ScalaContext::escape_keyword`. -/
def escapeKeyword (name : String) : String :=
  if isKeyword name then "`" ++ name ++ "`" else name

/-- `ScalaContext::to_camel_case`. -/
def toCamelCase (name : String) : String :=
  escapeKeyword (toLowerCamelCaseRaw name)

/-- `ScalaContext::to_pascal_case`. -/
def toPascalCase (name : String) : String :=
  escapeKeyword (toPascalCaseRaw name)

/-- `ScalaContext::to_snake_case` (note: no keyword escaping in the source). -/
def toSnakeCase (name : String) : String :=
  toSnakeCaseRaw name

/-! ## Documentation formatting (context.rs `format_docs_with_indent`) -/

structure Docs where
  contents : Option String
deriving DecidableEq

def indentString (indent : Nat) : String :=
  String.mk (List.replicate indent ' ')

/-- `format_docs_with_indent`: trim the documentation text, then emit the first
line behind the Scaladoc opener, each further non-blank line behind a
continuation marker, each blank line as a bare continuation marker, and a
closing marker. -/
def formatDocsWithIndent (docs : Docs) (indent : Nat) : String :=
  let content := rustTrim (docs.contents.getD "")
  if content = "" then ""
  else
    match rustLines content with
    | [] => ""
    | l0 :: rest =>
      let indentStr := indentString indent
      indentStr ++ "/** " ++ l0 ++ "\n"
        ++ strConcat (rest.map (fun line =>
             if rustTrim line = "" then indentStr ++ " *\n"
             else indentStr ++ " *  " ++ line ++ "\n"))
        ++ indentStr ++ " */\n"

def formatDocs (docs : Docs) : String := formatDocsWithIndent docs 0

/-! ## Schema data model (the wit-parser types this generator consumes) -/

/-- `wit_parser::Type`: a primitive, a reference into the type arena, or the
error-context marker. -/
inductive WitType
  | bool | s8 | u8 | s16 | u16 | s32 | u32 | s64 | u64 | f32 | f64
  | char | string
  | id (i : Nat)
  | errorContext
deriving DecidableEq

/-- `wit_parser::Handle`. -/
inductive Handle
  | own (i : Nat)
  | borrow (i : Nat)
deriving DecidableEq

structure Field where
  name : String
  ty : WitType
deriving DecidableEq

structure Case where
  name : String
  ty : Option WitType
deriving DecidableEq

structure EnumCase where
  name : String
deriving DecidableEq

structure Flag where
  name : String
deriving DecidableEq

/-- `wit_parser::TypeDefKind`. -/
inductive TypeDefKind
  | record (fields : List Field)
  | variant (cases : List Case)
  | enum (cases : List EnumCase)
  | flags (fs : List Flag)
  | tuple (types : List WitType)
  | option (inner : WitType)
  | result (ok : Option WitType) (err : Option WitType)
  | list (inner : WitType)
  | fixedSizeList (inner : WitType) (size : Nat)
  | typeAlias (inner : WitType)
  | handle (h : Handle)
  | resource
  | future (inner : Option WitType)
  | stream (inner : Option WitType)
  | unknown
deriving DecidableEq

inductive TypeOwner
  | noOwner
  | world (w : Nat)
  | interface (i : Nat)
deriving DecidableEq

structure TypeDef where
  name : Option String
  kind : TypeDefKind
  owner : TypeOwner
  docs : Docs
deriving DecidableEq

/-- `wit_parser::FunctionKind` (`ctor` models `Constructor`). -/
inductive FunctionKind
  | freestanding
  | method (r : Nat)
  | ctor (r : Nat)
  | static (r : Nat)
deriving DecidableEq

structure Function where
  name : String
  kind : FunctionKind
  params : List (String × WitType)
  result : Option WitType
  docs : Docs
deriving DecidableEq

structure PackageName where
  /-- the `namespace` field of `wit_parser::PackageName` -/
  nspace : String
  name : String
  version : Option String
deriving DecidableEq

structure Package where
  name : PackageName
deriving DecidableEq

structure Interface where
  name : Option String
  types : List (String × Nat)
  functions : List (String × Function)
  package : Option Nat
  docs : Docs
deriving DecidableEq

inductive WorldItem
  | interfaceItem (i : Nat)
  | functionItem (f : Function)
  | typeItem (t : Nat)
deriving DecidableEq

structure World where
  name : String
  imports : List (String × WorldItem)
  exports : List (String × WorldItem)
deriving DecidableEq

/-- The resolved schema graph (arenas indexed by Nat ids). -/
structure Resolve where
  types : List TypeDef
  interfaces : List Interface
  packages : List Package
  worlds : List World
deriving DecidableEq

/-- Generator options (lib.rs `Opts`). -/
structure Opts where
  basePackage : String
  bindingRoot : Option String
deriving DecidableEq

/-- context.rs `ScalaContext` (the keyword table is the fixed global
`scalaKeywords`). -/
structure ScalaContext where
  opts : Opts
  currentInterface : Option Nat
deriving DecidableEq

/-- Arena lookups; an invalid id is a Rust panic, modelled as an error. -/
def getType (resolve : Resolve) (i : Nat) : Except String TypeDef :=
  match resolve.types.get? i with
  | some t => Except.ok t
  | none => Except.error ("invalid type id")

def getInterface (resolve : Resolve) (i : Nat) : Except String Interface :=
  match resolve.interfaces.get? i with
  | some t => Except.ok t
  | none => Except.error ("invalid interface id")

def getPackage (resolve : Resolve) (i : Nat) : Except String Package :=
  match resolve.packages.get? i with
  | some t => Except.ok t
  | none => Except.error ("invalid package id")

def getWorld (resolve : Resolve) (i : Nat) : Except String World :=
  match resolve.worlds.get? i with
  | some t => Except.ok t
  | none => Except.error ("invalid world id")

/-! ## Annotation emitters (annotations.rs) -/

def componentImport (namespace_ name : String) : String :=
  "@scala.scalajs.wit.annotation.WitImport(\"" ++ namespace_ ++ "\", \"" ++ name ++ "\")"

def componentExport (namespace_ name : String) : String :=
  "@scala.scalajs.wit.annotation.WitExport(\"" ++ namespace_ ++ "\", \"" ++ name ++ "\")"

def componentRecord : String := "@scala.scalajs.wit.annotation.WitRecord"

def componentVariant : String := "@scala.scalajs.wit.annotation.WitVariant"

def componentFlags (numFlags : Nat) : String :=
  "@scala.scalajs.wit.annotation.WitFlags(" ++ toString numFlags ++ ")"

def componentResourceImport (namespace_ name : String) : String :=
  "@scala.scalajs.wit.annotation.WitResourceImport(\"" ++ namespace_ ++ "\", \"" ++ name ++ "\")"

def componentResourceConstructor : String :=
  "@scala.scalajs.wit.annotation.WitResourceConstructor"

def componentResourceMethod (name : String) : String :=
  "@scala.scalajs.wit.annotation.WitResourceMethod(\"" ++ name ++ "\")"

def componentResourceStaticMethod (name : String) : String :=
  "@scala.scalajs.wit.annotation.WitResourceStaticMethod(\"" ++ name ++ "\")"

def componentResourceDrop : String :=
  "@scala.scalajs.wit.annotation.WitResourceDrop"

def componentExportInterface : String :=
  "@scala.scalajs.wit.annotation.WitExportInterface"

def nativeMarker : String := "scala.scalajs.wit.native"

/-- The parameter list of `annotations::import_function`'s signature loop. -/
def importParamList : List (String × String) → String
  | [] => ""
  | [p] => p.1 ++ ": " ++ p.2
  | p :: ps => p.1 ++ ": " ++ p.2 ++ ", " ++ importParamList ps

/-- The parameter list of `annotations::export_function`'s signature loop
(duplicated in the source exactly as in `import_function`). -/
def exportParamList : List (String × String) → String
  | [] => ""
  | [p] => p.1 ++ ": " ++ p.2
  | p :: ps => p.1 ++ ": " ++ p.2 ++ ", " ++ exportParamList ps

/-- `annotations::import_function`. -/
def importFunction (namespace_ witName scalaName : String)
    (params : List (String × String)) (returnType : Option String)
    (docs : String) : String :=
  (if docs = "" then "" else docs)
    ++ componentImport namespace_ witName ++ "\n"
    ++ "def " ++ scalaName ++ "(" ++ importParamList params ++ ")"
    ++ (match returnType with
        | some ret => ": " ++ ret
        | none => ": Unit")
    ++ " = " ++ nativeMarker ++ "\n"

/-- `annotations::export_function`. -/
def exportFunction (namespace_ witName scalaName : String)
    (params : List (String × String)) (returnType : Option String)
    (docs : String) : String :=
  (if docs = "" then "" else docs)
    ++ componentExport namespace_ witName ++ "\n"
    ++ "def " ++ scalaName ++ "(" ++ exportParamList params ++ ")"
    ++ (match returnType with
        | some ret => ": " ++ ret
        | none => ": Unit")
    ++ "\n"

/-! ## Type expression renderer (context.rs) -/

/-- `ScalaContext::base_package_segments`. -/
def basePackageSegments (ctx : ScalaContext) : List String :=
  (splitOnPred (fun c => c == '.') ctx.opts.basePackage.data).map String.mk

/-- `ScalaContext::get_qualified_type_name`: fully qualify a named type when it
is owned by an interface other than the current one. -/
def getQualifiedTypeName (ctx : ScalaContext) (resolve : Resolve)
    (typeId : Nat) (typeName : String) : Except String String :=
  match resolve.types.get? typeId with
  | none => Except.error ("invalid type id")
  | some ty =>
    match ty.owner, ctx.currentInterface with
    | TypeOwner.interface typeInterfaceId, some currentInterfaceId =>
      if typeInterfaceId ≠ currentInterfaceId then
        match resolve.interfaces.get? typeInterfaceId with
        | none => Except.error ("invalid interface id")
        | some typeInterface =>
          match typeInterface.name with
          | none => Except.error ("Interface must have a name")
          | some interfaceName =>
            match typeInterface.package with
            | some packageId =>
              match resolve.packages.get? packageId with
              | none => Except.error ("invalid package id")
              | some package =>
                Except.ok (joinSep "."
                  (basePackageSegments ctx
                    ++ [toSnakeCase package.name.nspace,
                        toSnakeCase package.name.name,
                        toSnakeCase interfaceName,
                        toPascalCase typeName]))
            | none => Except.ok (toPascalCase typeName)
      else Except.ok (toPascalCase typeName)
    | _, _ => Except.ok (toPascalCase typeName)

/-- `ScalaContext::render_primitive_type`; calling it on a non-primitive kind
is `unreachable!` in the source, modelled as an error. -/
def renderPrimitiveType : WitType → Except String String
  | WitType.bool => Except.ok ("Boolean")
  | WitType.s8 => Except.ok ("Byte")
  | WitType.u8 => Except.ok ("scala.scalajs.wit.unsigned.UByte")
  | WitType.s16 => Except.ok ("Short")
  | WitType.u16 => Except.ok ("scala.scalajs.wit.unsigned.UShort")
  | WitType.s32 => Except.ok ("Int")
  | WitType.u32 => Except.ok ("scala.scalajs.wit.unsigned.UInt")
  | WitType.s64 => Except.ok ("Long")
  | WitType.u64 => Except.ok ("scala.scalajs.wit.unsigned.ULong")
  | WitType.f32 => Except.ok ("Float")
  | WitType.f64 => Except.ok ("Double")
  | WitType.char => Except.ok ("Char")
  | WitType.string => Except.ok ("String")
  | _ => Except.error ("Not a primitive type")

/-- The element-wise rendering of a tuple's types, parameterised by the
recursive type renderer (`render_type`'s call on each element). -/
def renderTypeListWith (rec_ : WitType → Except String String) :
    List WitType → Except String (List String)
  | [] => Except.ok []
  | t :: ts =>
    match rec_ t with
    | Except.error e => Except.error e
    | Except.ok s =>
      match renderTypeListWith rec_ ts with
      | Except.error e => Except.error e
      | Except.ok rest => Except.ok (s :: rest)

/-- The body of `ScalaContext::render_type_id`, parameterised by the recursive
`render_type` call. -/
def renderTypeIdWith (ctx : ScalaContext) (resolve : Resolve)
    (rec_ : WitType → Except String String) (i : Nat) : Except String String :=
  match resolve.types.get? i with
  | none => Except.error ("invalid type id")
  | some ty =>
    match ty.kind with
    | TypeDefKind.list inner =>
      match rec_ inner with
      | Except.error e => Except.error e
      | Except.ok s => Except.ok ("Array[" ++ s ++ "]")
    | TypeDefKind.option inner =>
      match rec_ inner with
      | Except.error e => Except.error e
      | Except.ok s => Except.ok ("java.util.Optional[" ++ s ++ "]")
    | TypeDefKind.result okT errT =>
      match (match okT with
             | some t => rec_ t
             | none => Except.ok ("Unit")) with
      | Except.error e => Except.error e
      | Except.ok okS =>
        match (match errT with
               | some t => rec_ t
               | none => Except.ok ("Unit")) with
        | Except.error e => Except.error e
        | Except.ok errS =>
          Except.ok ("scala.scalajs.wit.Result[" ++ okS ++ ", " ++ errS ++ "]")
    | TypeDefKind.tuple types =>
      match renderTypeListWith rec_ types with
      | Except.error e => Except.error e
      | Except.ok ps =>
        Except.ok ("scala.scalajs.wit.Tuple" ++ toString ps.length
          ++ "[" ++ joinSep ", " ps ++ "]")
    | TypeDefKind.record _ | TypeDefKind.variant _
    | TypeDefKind.enum _ | TypeDefKind.flags _ =>
      match ty.name with
      | none => Except.error ("Named types must have a name")
      | some typeName => getQualifiedTypeName ctx resolve i typeName
    | TypeDefKind.typeAlias inner => rec_ inner
    | TypeDefKind.handle h =>
      match (match h with
             | Handle.own rid => rid
             | Handle.borrow rid => rid) with
      | resourceId =>
        match resolve.types.get? resourceId with
        | none => Except.error ("invalid type id")
        | some resourceTy =>
          match resourceTy.name with
          | none => Except.error ("Resources must have a name")
          | some typeName => getQualifiedTypeName ctx resolve resourceId typeName
    | TypeDefKind.resource =>
      match ty.name with
      | none => Except.error ("Resources must have a name")
      | some typeName => getQualifiedTypeName ctx resolve i typeName
    | TypeDefKind.fixedSizeList inner _ =>
      match rec_ inner with
      | Except.error e => Except.error e
      | Except.ok s => Except.ok ("Array[" ++ s ++ "]")
    | TypeDefKind.future _ => Except.ok ("Unknown")
    | TypeDefKind.stream _ => Except.ok ("Unknown")
    | TypeDefKind.unknown => Except.ok ("Unknown")

/-- `ScalaContext::render_type`.  `fuel` bounds the recursion depth through
the (possibly cyclic) type arena; every claim is stated for an arbitrary fuel
that lets the relevant branch complete. -/
def renderType (ctx : ScalaContext) (resolve : Resolve) :
    Nat → WitType → Except String String
  | _, WitType.errorContext => Except.error ("ErrorContext type is not supported")
  | fuel, WitType.id i =>
    match fuel with
    | 0 => Except.error ("type recursion limit reached")
    | f + 1 => renderTypeIdWith ctx resolve (fun t => renderType ctx resolve f t) i
  | _, t => renderPrimitiveType t

/-- `ScalaContext::render_type_id`. -/
def renderTypeId (ctx : ScalaContext) (resolve : Resolve) (fuel : Nat)
    (i : Nat) : Except String String :=
  renderTypeIdWith ctx resolve (fun t => renderType ctx resolve fuel t) i

/-- The tuple-element rendering at a given fuel. -/
def renderTypeList (ctx : ScalaContext) (resolve : Resolve) (fuel : Nat)
    (l : List WitType) : Except String (List String) :=
  renderTypeListWith (fun t => renderType ctx resolve fuel t) l

/-! ## Declaration renderers (context.rs) -/

/-- The `name: Type` rendering of a record's fields, in order. -/
def renderRecordFields (ctx : ScalaContext) (resolve : Resolve) (fuel : Nat) :
    List Field → Except String (List String)
  | [] => Except.ok []
  | f :: fs =>
    match renderType ctx resolve fuel f.ty with
    | Except.error e => Except.error e
    | Except.ok fieldType =>
      match renderRecordFields ctx resolve fuel fs with
      | Except.error e => Except.error e
      | Except.ok rest => Except.ok ((toCamelCase f.name ++ ": " ++ fieldType) :: rest)

/-- `ScalaContext::render_record`. -/
def renderRecord (ctx : ScalaContext) (resolve : Resolve) (fuel : Nat)
    (name : String) (fields : List Field) (typeDocs : Docs) : Except String String :=
  let docs := formatDocs typeDocs
  match renderRecordFields ctx resolve fuel fields with
  | Except.error e => Except.error e
  | Except.ok fieldStrs =>
    Except.ok ((if docs = "" then "" else docs)
      ++ componentRecord ++ "\n"
      ++ "final case class " ++ name ++ "(" ++ joinSep ", " fieldStrs ++ ")\n")

/-- The per-case lines of a variant body. -/
def renderVariantCases (ctx : ScalaContext) (resolve : Resolve) (fuel : Nat)
    (name : String) : List Case → Except String String
  | [] => Except.ok ""
  | c :: cs =>
    let caseName := toPascalCase c.name
    match (match c.ty with
           | some ty =>
             match renderType ctx resolve fuel ty with
             | Except.error e => Except.error e
             | Except.ok caseType =>
               Except.ok ("  final case class " ++ caseName ++ "(value: " ++ caseType
                 ++ ") extends " ++ name ++ "\n")
           | none =>
             Except.ok ("  case object " ++ caseName ++ " extends " ++ name ++ "\n")) with
    | Except.error e => Except.error e
    | Except.ok line =>
      match renderVariantCases ctx resolve fuel name cs with
      | Except.error e => Except.error e
      | Except.ok rest => Except.ok (line ++ rest)

/-- `ScalaContext::render_variant`. -/
def renderVariant (ctx : ScalaContext) (resolve : Resolve) (fuel : Nat)
    (name : String) (cases : List Case) (typeDocs : Docs) : Except String String :=
  let docs := formatDocs typeDocs
  match renderVariantCases ctx resolve fuel name cases with
  | Except.error e => Except.error e
  | Except.ok body =>
    Except.ok ((if docs = "" then "" else docs)
      ++ componentVariant ++ "\n"
      ++ "sealed trait " ++ name ++ "\n"
      ++ "object " ++ name ++ " \x7b\n"
      ++ body
      ++ "\x7d\n")

/-- `ScalaContext::render_enum` (pure: no type references). -/
def renderEnum (name : String) (cases : List EnumCase) (typeDocs : Docs) : String :=
  let docs := formatDocs typeDocs
  (if docs = "" then "" else docs)
    ++ componentVariant ++ "\n"
    ++ "sealed trait " ++ name ++ "\n"
    ++ "object " ++ name ++ " \x7b\n"
    ++ strConcat (cases.map (fun c =>
         "  case object " ++ toPascalCase c.name ++ " extends " ++ name ++ "\n"))
    ++ "\x7d\n"

/-- The bit-constant lines of a flags companion object: one `val` per flag at
bit position `1 << index`, indices counted from `k`. -/
def flagValsAux (name : String) : List Flag → Nat → String
  | [], _ => ""
  | f :: fs, i =>
    "  val " ++ toCamelCase f.name ++ " = " ++ name ++ "(1 << " ++ toString i ++ ")\n"
      ++ flagValsAux name fs (i + 1)

/-- `ScalaContext::render_flags` (pure: no type references). -/
def renderFlags (name : String) (fs : List Flag) (typeDocs : Docs) : String :=
  let docs := formatDocs typeDocs
  (if docs = "" then "" else docs)
    ++ componentFlags fs.length ++ "\n"
    ++ "final case class " ++ name ++ "(value: Int) \x7b\n"
    ++ "  def |(other: " ++ name ++ "): " ++ name ++ " = " ++ name ++ "(value | other.value)\n"
    ++ "  def &(other: " ++ name ++ "): " ++ name ++ " = " ++ name ++ "(value & other.value)\n"
    ++ "  def ^(other: " ++ name ++ "): " ++ name ++ " = " ++ name ++ "(value ^ other.value)\n"
    ++ "  def unary_~ : " ++ name ++ " = " ++ name ++ "(~value)\n"
    ++ "  def contains(other: " ++ name ++ "): Boolean = (value & other.value) == other.value\n"
    ++ "\x7d\n"
    ++ "object " ++ name ++ " \x7b\n"
    ++ flagValsAux name fs 0
    ++ "\x7d\n"

/-- `ScalaContext::render_tuple_typedef`. -/
def renderTupleTypedef (ctx : ScalaContext) (resolve : Resolve) (fuel : Nat)
    (name : String) (types : List WitType) : Except String String :=
  match renderTypeList ctx resolve fuel types with
  | Except.error e => Except.error e
  | Except.ok ps =>
    Except.ok ("type " ++ name ++ " = scala.scalajs.wit.Tuple" ++ toString types.length
      ++ "[" ++ joinSep ", " ps ++ "]")

/-- `ScalaContext::render_option_typedef`. -/
def renderOptionTypedef (ctx : ScalaContext) (resolve : Resolve) (fuel : Nat)
    (name : String) (inner : WitType) : Except String String :=
  match renderType ctx resolve fuel inner with
  | Except.error e => Except.error e
  | Except.ok s => Except.ok ("type " ++ name ++ " = java.util.Optional[" ++ s ++ "]")

/-- `ScalaContext::render_result_typedef`. -/
def renderResultTypedef (ctx : ScalaContext) (resolve : Resolve) (fuel : Nat)
    (name : String) (okT errT : Option WitType) : Except String String :=
  match (match okT with
         | some t => renderType ctx resolve fuel t
         | none => Except.ok ("Unit")) with
  | Except.error e => Except.error e
  | Except.ok okS =>
    match (match errT with
           | some t => renderType ctx resolve fuel t
           | none => Except.ok ("Unit")) with
    | Except.error e => Except.error e
    | Except.ok errS =>
      Except.ok ("type " ++ name ++ " = scala.scalajs.wit.Result[" ++ okS ++ ", " ++ errS ++ "]")

/-- `ScalaContext::render_list_typedef`. -/
def renderListTypedef (ctx : ScalaContext) (resolve : Resolve) (fuel : Nat)
    (name : String) (inner : WitType) : Except String String :=
  match renderType ctx resolve fuel inner with
  | Except.error e => Except.error e
  | Except.ok s => Except.ok ("type " ++ name ++ " = Array[" ++ s ++ "]")

/-- `ScalaContext::render_typedef`: dispatch a named typedef to its structural
renderer.  Future/Stream/Unknown kinds are a `panic!` in the source. -/
def renderTypedef (ctx : ScalaContext) (resolve : Resolve) (fuel : Nat)
    (i : Nat) : Except String String :=
  match resolve.types.get? i with
  | none => Except.error ("invalid type id")
  | some ty =>
    match ty.name with
    | none => Except.error ("Type must have a name")
    | some name =>
      let typeName := toPascalCase name
      match ty.kind with
      | TypeDefKind.record fields => renderRecord ctx resolve fuel typeName fields ty.docs
      | TypeDefKind.variant cases => renderVariant ctx resolve fuel typeName cases ty.docs
      | TypeDefKind.enum cases => Except.ok (renderEnum typeName cases ty.docs)
      | TypeDefKind.flags fs => Except.ok (renderFlags typeName fs ty.docs)
      | TypeDefKind.tuple types => renderTupleTypedef ctx resolve fuel typeName types
      | TypeDefKind.option inner => renderOptionTypedef ctx resolve fuel typeName inner
      | TypeDefKind.result okT errT => renderResultTypedef ctx resolve fuel typeName okT errT
      | TypeDefKind.list inner => renderListTypedef ctx resolve fuel typeName inner
      | TypeDefKind.typeAlias inner =>
        match renderType ctx resolve fuel inner with
        | Except.error e => Except.error e
        | Except.ok s => Except.ok ("type " ++ typeName ++ " = " ++ s)
      | TypeDefKind.handle _ => Except.ok ("// Resource: " ++ typeName)
      | TypeDefKind.resource => Except.ok ("// Resource: " ++ typeName)
      | TypeDefKind.fixedSizeList inner size =>
        match renderType ctx resolve fuel inner with
        | Except.error e => Except.error e
        | Except.ok s =>
          Except.ok ("type " ++ typeName ++ " = Array[" ++ s ++ "] // Fixed size: " ++ toString size)
      | TypeDefKind.future _ => Except.error ("Unsupported type")
      | TypeDefKind.stream _ => Except.error ("Unsupported type")
      | TypeDefKind.unknown => Except.error ("Unsupported type")

/-! ## Function signature renderer (context.rs `render_function`) -/

/-- The `(name, rendered type)` pairs collected for a function's parameters. -/
def renderFuncParams (ctx : ScalaContext) (resolve : Resolve) (fuel : Nat) :
    List (String × WitType) → Except String (List (String × String))
  | [] => Except.ok []
  | (paramName, paramTy) :: ps =>
    match renderType ctx resolve fuel paramTy with
    | Except.error e => Except.error e
    | Except.ok scalaParamType =>
      match renderFuncParams ctx resolve fuel ps with
      | Except.error e => Except.error e
      | Except.ok rest => Except.ok ((toCamelCase paramName, scalaParamType) :: rest)

/-- `ScalaContext::render_function`. -/
def renderFunction (ctx : ScalaContext) (resolve : Resolve) (fuel : Nat)
    (func : Function) (isImport : Bool) (namespace_ : String) : Except String String :=
  let funcName := toCamelCase func.name
  let docs := formatDocs func.docs
  match renderFuncParams ctx resolve fuel func.params with
  | Except.error e => Except.error e
  | Except.ok params =>
    match (match func.result with
           | some ty =>
             match renderType ctx resolve fuel ty with
             | Except.error e => Except.error e
             | Except.ok s => Except.ok (some s)
           | none => Except.ok none) with
    | Except.error e => Except.error e
    | Except.ok returnType =>
      if isImport then
        Except.ok (importFunction namespace_ func.name funcName params returnType docs)
      else
        Except.ok (exportFunction namespace_ func.name funcName params returnType docs)

/-! ## Resource renderer (resource.rs) -/

/-- The shared parameter-list loop of the resource method/constructor/static
renderers (`for (i, (param_name, param_ty)) in func.params ...`). -/
def resourceParamsList (ctx : ScalaContext) (resolve : Resolve) (fuel : Nat) :
    List (String × WitType) → Except String String
  | [] => Except.ok ""
  | [(paramName, paramTy)] =>
    match renderType ctx resolve fuel paramTy with
    | Except.error e => Except.error e
    | Except.ok scalaType => Except.ok (toCamelCase paramName ++ ": " ++ scalaType)
  | (paramName, paramTy) :: ps =>
    match renderType ctx resolve fuel paramTy with
    | Except.error e => Except.error e
    | Except.ok scalaType =>
      match resourceParamsList ctx resolve fuel ps with
      | Except.error e => Except.error e
      | Except.ok rest => Except.ok (toCamelCase paramName ++ ": " ++ scalaType ++ ", " ++ rest)

/-- `resource::render_resource_method`. -/
def renderResourceMethod (ctx : ScalaContext) (resolve : Resolve) (fuel : Nat)
    (witName : String) (func : Function) : Except String String :=
  let methodName := toCamelCase witName
  let docs := formatDocsWithIndent func.docs 2
  match resourceParamsList ctx resolve fuel func.params with
  | Except.error e => Except.error e
  | Except.ok params =>
    match (match func.result with
           | some retTy =>
             match renderType ctx resolve fuel retTy with
             | Except.error e => Except.error e
             | Except.ok s => Except.ok (": " ++ s)
           | none => Except.ok (": Unit")) with
    | Except.error e => Except.error e
    | Except.ok retStr =>
      Except.ok ((if docs = "" then "" else docs)
        ++ "  " ++ componentResourceMethod witName ++ "\n"
        ++ "  def " ++ methodName ++ "(" ++ params ++ ")" ++ retStr
        ++ " = " ++ nativeMarker ++ "\n")

/-- `resource::render_resource_constructor`. -/
def renderResourceConstructor (ctx : ScalaContext) (resolve : Resolve) (fuel : Nat)
    (scalaName : String) (func : Function) : Except String String :=
  let docs := formatDocsWithIndent func.docs 2
  match resourceParamsList ctx resolve fuel func.params with
  | Except.error e => Except.error e
  | Except.ok params =>
    Except.ok ((if docs = "" then "" else docs)
      ++ "  " ++ componentResourceConstructor ++ "\n"
      ++ "  def apply(" ++ params ++ ")" ++ ": " ++ scalaName
      ++ " = " ++ nativeMarker ++ "\n")

/-- `resource::render_resource_static_method`. -/
def renderResourceStaticMethod (ctx : ScalaContext) (resolve : Resolve) (fuel : Nat)
    (witName : String) (func : Function) : Except String String :=
  let methodName := toCamelCase witName
  let docs := formatDocsWithIndent func.docs 2
  match resourceParamsList ctx resolve fuel func.params with
  | Except.error e => Except.error e
  | Except.ok params =>
    match (match func.result with
           | some retTy =>
             match renderType ctx resolve fuel retTy with
             | Except.error e => Except.error e
             | Except.ok s => Except.ok (": " ++ s)
           | none => Except.ok (": Unit")) with
    | Except.error e => Except.error e
    | Except.ok retStr =>
      Except.ok ((if docs = "" then "" else docs)
        ++ "  " ++ componentResourceStaticMethod witName ++ "\n"
        ++ "  def " ++ methodName ++ "(" ++ params ++ ")" ++ retStr
        ++ " = " ++ nativeMarker ++ "\n")

/-- `resource::render_resource_drop_method`: every resource gets exactly one
destructor-shaped method. -/
def renderResourceDropMethod : String :=
  "  " ++ componentResourceDrop ++ "\n"
    ++ "  def close(): Unit = " ++ nativeMarker ++ "\n"

/-- The instance-method section of an imported resource: every owning
interface Function of kind `Method(resource_id)`. -/
def resourceMethodsSection (ctx : ScalaContext) (resolve : Resolve) (fuel : Nat)
    (resourceId : Nat) : List (String × Function) → Except String String
  | [] => Except.ok ""
  | (_, func) :: fs =>
    match func.kind with
    | FunctionKind.method methodResourceId =>
      if methodResourceId = resourceId then
        match renderResourceMethod ctx resolve fuel func.name func with
        | Except.error e => Except.error e
        | Except.ok m =>
          match resourceMethodsSection ctx resolve fuel resourceId fs with
          | Except.error e => Except.error e
          | Except.ok rest => Except.ok (m ++ rest)
      else resourceMethodsSection ctx resolve fuel resourceId fs
    | _ => resourceMethodsSection ctx resolve fuel resourceId fs

/-- The companion-object section of an imported resource: the constructor and
every static method of this resource. -/
def resourceCompanionSection (ctx : ScalaContext) (resolve : Resolve) (fuel : Nat)
    (resourceId : Nat) (scalaName : String) :
    List (String × Function) → Except String String
  | [] => Except.ok ""
  | (_, func) :: fs =>
    match func.kind with
    | FunctionKind.ctor ctorResourceId =>
      if ctorResourceId = resourceId then
        match renderResourceConstructor ctx resolve fuel scalaName func with
        | Except.error e => Except.error e
        | Except.ok c =>
          match resourceCompanionSection ctx resolve fuel resourceId scalaName fs with
          | Except.error e => Except.error e
          | Except.ok rest => Except.ok (c ++ rest)
      else resourceCompanionSection ctx resolve fuel resourceId scalaName fs
    | FunctionKind.static staticResourceId =>
      if staticResourceId = resourceId then
        match renderResourceStaticMethod ctx resolve fuel func.name func with
        | Except.error e => Except.error e
        | Except.ok m =>
          match resourceCompanionSection ctx resolve fuel resourceId scalaName fs with
          | Except.error e => Except.error e
          | Except.ok rest => Except.ok (m ++ rest)
      else resourceCompanionSection ctx resolve fuel resourceId scalaName fs
    | _ => resourceCompanionSection ctx resolve fuel resourceId scalaName fs

/-- `resource::render_imported_resource`: trait with methods + drop, then a
companion with constructor and static methods. -/
def renderImportedResource (ctx : ScalaContext) (resolve : Resolve) (fuel : Nat)
    (resourceId : Nat) (namespace_ : String) : Except String String :=
  match resolve.types.get? resourceId with
  | none => Except.error ("invalid type id")
  | some resource =>
    match resource.name with
    | none => Except.error ("Resource must have a name")
    | some resourceName =>
      let scalaName := toPascalCase resourceName
      let docs := formatDocs resource.docs
      match (match resource.owner with
             | TypeOwner.interface ifaceId =>
               match resolve.interfaces.get? ifaceId with
               | none => Except.error ("invalid interface id")
               | some iface => resourceMethodsSection ctx resolve fuel resourceId iface.functions
             | _ => Except.ok "") with
      | Except.error e => Except.error e
      | Except.ok methods =>
        match (match resource.owner with
               | TypeOwner.interface ifaceId =>
                 match resolve.interfaces.get? ifaceId with
                 | none => Except.error ("invalid interface id")
                 | some iface =>
                   resourceCompanionSection ctx resolve fuel resourceId scalaName iface.functions
               | _ => Except.ok "") with
        | Except.error e => Except.error e
        | Except.ok companion =>
          Except.ok ((if docs = "" then "" else docs)
            ++ componentResourceImport namespace_ resourceName ++ "\n"
            ++ "trait " ++ scalaName ++ " \x7b\n"
            ++ methods
            ++ renderResourceDropMethod
            ++ "\x7d\n"
            ++ "object " ++ scalaName ++ " \x7b\n"
            ++ companion
            ++ "\x7d\n")

/-! ## Interface assembly (interface.rs) -/

/-- Re-emit a rendered fragment's lines at two-space indentation, blank lines
kept bare (the `for line in code.lines()` loops of interface.rs). -/
def indentBlock (s : String) : String :=
  strConcat ((linesPlain s).map (fun line =>
    if line = "" then "\n" else "  " ++ line ++ "\n"))

/-- The type-definitions loop of `render_interface`: collect every rendered
typedef that is non-empty and not a `//` placeholder comment. -/
def collectTypedefs (ctx : ScalaContext) (resolve : Resolve) (fuel : Nat) :
    List (String × Nat) → List (String × String) → Except String (List (String × String))
  | [], acc => Except.ok acc
  | p :: ps, acc =>
    match renderTypedef ctx resolve fuel p.2 with
    | Except.error e => Except.error e
    | Except.ok typedef =>
      if typedef ≠ "" ∧ startsWithStr "//" typedef = false then
        collectTypedefs ctx resolve fuel ps (acc ++ [(p.1, typedef)])
      else
        collectTypedefs ctx resolve fuel ps acc

/-- The resources loop of `render_interface`: imported resources are rendered;
an exported resource is a `panic!` naming the resource and the interface. -/
def collectResources (ctx : ScalaContext) (resolve : Resolve) (fuel : Nat)
    (namespace_ interfaceName : String) (isImport : Bool) :
    List (String × Nat) → List (String × String) → Except String (List (String × String))
  | [], acc => Except.ok acc
  | p :: ps, acc =>
    match resolve.types.get? p.2 with
    | none => Except.error ("invalid type id")
    | some resourceType =>
      match resourceType.kind with
      | TypeDefKind.resource =>
        if isImport then
          match renderImportedResource ctx resolve fuel p.2 namespace_ with
          | Except.error e => Except.error e
          | Except.ok resourceCode =>
            collectResources ctx resolve fuel namespace_ interfaceName isImport ps
              (acc ++ [(p.1, resourceCode)])
        else
          Except.error ("Scala bindings do not support exporting resources. Resource '"
            ++ p.1 ++ "' in interface '" ++ interfaceName ++ "' cannot be exported.")
      | _ => collectResources ctx resolve fuel namespace_ interfaceName isImport ps acc

/-- The functions loop of `render_interface`: freestanding functions only
(resource methods, constructors and statics are handled by the resource
renderer). -/
def collectFunctions (ctx : ScalaContext) (resolve : Resolve) (fuel : Nat)
    (namespace_ : String) (isImport : Bool) :
    List (String × Function) → List (String × String) → Except String (List (String × String))
  | [], acc => Except.ok acc
  | p :: ps, acc =>
    match p.2.kind with
    | FunctionKind.method _ => collectFunctions ctx resolve fuel namespace_ isImport ps acc
    | FunctionKind.ctor _ => collectFunctions ctx resolve fuel namespace_ isImport ps acc
    | FunctionKind.static _ => collectFunctions ctx resolve fuel namespace_ isImport ps acc
    | FunctionKind.freestanding =>
      match renderFunction ctx resolve fuel p.2 isImport namespace_ with
      | Except.error e => Except.error e
      | Except.ok funcCode =>
        collectFunctions ctx resolve fuel namespace_ isImport ps (acc ++ [(p.1, funcCode)])

/-- `interface::get_package_path`: dotted package path for an interface file
(`base[.exports].namespace.package`). -/
def getPackagePath (ctx : ScalaContext) (namespace_ : String) (isImport : Bool) : String :=
  let segments := basePackageSegments ctx
  let segments := if isImport then segments else segments ++ ["exports"]
  let parts := (splitOnPred (fun c => c == ':') namespace_.data).map String.mk
  let segments :=
    match parts with
    | packagePart :: rest :: _ =>
      let segments := segments ++ [toSnakeCase packagePart]
      let pathParts := (splitOnPred (fun c => c == '/') rest.data).map String.mk
      match pathParts with
      | [] => segments
      | p0 :: _ =>
        let packageName := ((splitOnPred (fun c => c == '@') p0.data).map String.mk).headD p0
        segments ++ [toSnakeCase packageName]
    | _ => segments
  joinSep "." segments

/-- `interface::get_interface_file_path`: the relative path of the generated
`.scala` file (segments joined by `/`, then the snake_cased interface name). -/
def getInterfaceFilePath (ctx : ScalaContext) (namespace_ interfaceName : String)
    (isImport : Bool) : String :=
  let segments := basePackageSegments ctx
  let segments := if isImport then segments else segments ++ ["exports"]
  let parts := (splitOnPred (fun c => c == ':') namespace_.data).map String.mk
  let segments :=
    match parts with
    | packagePart :: rest :: _ =>
      let segments := segments ++ [toSnakeCase packagePart]
      let pathParts := (splitOnPred (fun c => c == '/') rest.data).map String.mk
      match pathParts with
      | [] => segments
      | p0 :: _ =>
        let packageName := ((splitOnPred (fun c => c == '@') p0.data).map String.mk).headD p0
        segments ++ [toSnakeCase packageName]
    | _ => segments
  let fileName := toSnakeCase interfaceName ++ ".scala"
  joinSep "/" segments ++ "/" ++ fileName

/-- `interface::render_interface`: one interface file, either a `package
object` of natively-bound imports or an annotated export `trait`. -/
def renderInterface (ctx0 : ScalaContext) (resolve : Resolve) (fuel : Nat)
    (interfaceId : Nat) (namespace_ : String) (isImport : Bool) : Except String String :=
  match resolve.interfaces.get? interfaceId with
  | none => Except.error ("invalid interface id")
  | some interface_ =>
    match interface_.name with
    | none => Except.error ("Interface must have a name")
    | some interfaceName =>
      let ctx := { ctx0 with currentInterface := some interfaceId }
      let packageName := toSnakeCase interfaceName
      let typeName := toPascalCase interfaceName
      let packagePath := getPackagePath ctx namespace_ isImport
      let header := "package " ++ packagePath ++ "\n\n"
        ++ (if isImport then "package object " ++ packageName ++ " \x7b\n"
            else componentExportInterface ++ "\n" ++ "trait " ++ typeName ++ " \x7b\n")
        ++ "\n"
      match collectTypedefs ctx resolve fuel interface_.types [] with
      | Except.error e => Except.error e
      | Except.ok generatedTypes =>
        let typesSection :=
          if generatedTypes = [] then ""
          else "  // Type definitions\n"
            ++ strConcat (generatedTypes.map (fun p => indentBlock p.2 ++ "\n"))
        match collectResources ctx resolve fuel namespace_ interfaceName isImport
            interface_.types [] with
        | Except.error e => Except.error e
        | Except.ok generatedResources =>
          let resourcesSection :=
            if generatedResources = [] then ""
            else "  // Resources\n"
              ++ strConcat (generatedResources.map (fun p => indentBlock p.2 ++ "\n"))
          match collectFunctions ctx resolve fuel namespace_ isImport
              interface_.functions [] with
          | Except.error e => Except.error e
          | Except.ok generatedFunctions =>
            let functionsSection :=
              if generatedFunctions = [] then ""
              else "  // Functions\n"
                ++ strConcat (generatedFunctions.map (fun p => indentBlock p.2 ++ "\n"))
            Except.ok (header ++ typesSection ++ resourcesSection ++ functionsSection ++ "\x7d\n")

/-! ## World files (world.rs) and generator state (lib.rs) -/

/-- `world::get_world_package_path`. -/
def getWorldPackagePath (ctx : ScalaContext) (worldName : String) (isImport : Bool) : String :=
  let segments := basePackageSegments ctx
  let segments := if isImport then segments else segments ++ ["exports"]
  joinSep "." (segments ++ [toSnakeCase worldName])

/-- `world::get_world_file_path`. -/
def getWorldFilePath (ctx : ScalaContext) (worldName : String) (isImport : Bool) : String :=
  let segments := basePackageSegments ctx
  let segments := if isImport then segments else segments ++ ["exports"]
  joinSep "/" (segments ++ [toSnakeCase worldName]) ++ "/package.scala"

/-- The world-item loop of `render_world`: only `WorldItem::Type` entries ever
contribute content. -/
def worldItemsFold (ctx : ScalaContext) (resolve : Resolve) (fuel : Nat) :
    List (String × WorldItem) → Bool × String → Except String (Bool × String)
  | [], st => Except.ok st
  | p :: ps, st =>
    match p.2 with
    | WorldItem.typeItem typeId =>
      match renderTypedef ctx resolve fuel typeId with
      | Except.error e => Except.error e
      | Except.ok typedef =>
        if typedef ≠ "" ∧ startsWithStr "//" typedef = false then
          worldItemsFold ctx resolve fuel ps
            (true, st.2 ++ "  // Type definitions\n" ++ indentBlock typedef ++ "\n")
        else worldItemsFold ctx resolve fuel ps st
    | _ => worldItemsFold ctx resolve fuel ps st

/-- `world::render_world`: the file of world-level (interface-less) items;
`none` when no item produced content. -/
def renderWorld (ctx : ScalaContext) (resolve : Resolve) (fuel : Nat)
    (worldId : Nat) (isImport : Bool) : Except String (Option String) :=
  match resolve.worlds.get? worldId with
  | none => Except.error ("invalid world id")
  | some world =>
    let packageName := toSnakeCase world.name
    let packagePath := getWorldPackagePath ctx world.name isImport
    let header := "package " ++ packagePath ++ "\n\n"
      ++ "package object " ++ packageName ++ " \x7b\n\n"
    match worldItemsFold ctx resolve fuel
        (if isImport then world.imports else world.exports) (false, "") with
    | Except.error e => Except.error e
    | Except.ok (hasContent, body) =>
      let output := header ++ body ++ "\x7d\n"
      if hasContent then Except.ok (some output) else Except.ok none

/-- The world-level bookkeeping of the `Scala` generator (lib.rs). -/
structure ScalaState where
  hasWorldImports : Bool
  hasWorldExports : Bool
deriving DecidableEq

/-- `WorldGenerator::import_funcs` for `Scala`: only records that world-level
imports exist; no file is produced here. -/
def importFuncs (st : ScalaState) (funcs : List (String × Function)) : ScalaState :=
  if funcs.isEmpty then st else { st with hasWorldImports := true }

/-- `WorldGenerator::import_types` for `Scala`. -/
def importTypes (st : ScalaState) (types : List (String × Nat)) : ScalaState :=
  if types.isEmpty then st else { st with hasWorldImports := true }

/-- `WorldGenerator::export_funcs` for `Scala`. -/
def exportFuncs (st : ScalaState) (funcs : List (String × Function)) : ScalaState :=
  if funcs.isEmpty then st else { st with hasWorldExports := true }

/-- Kind tests used by the loops above and by the claims. -/
def isResourceKind : TypeDefKind → Bool
  | TypeDefKind.resource => true
  | _ => false

def isNamedKind : TypeDefKind → Bool
  | TypeDefKind.record _ => true
  | TypeDefKind.variant _ => true
  | TypeDefKind.enum _ => true
  | TypeDefKind.flags _ => true
  | _ => false

def isUnrepresentableKind : TypeDefKind → Bool
  | TypeDefKind.future _ => true
  | TypeDefKind.stream _ => true
  | TypeDefKind.unknown => true
  | _ => false

def isTypeItem : WorldItem → Bool
  | WorldItem.typeItem _ => true
  | _ => false

def isOkE (e : Except String String) : Bool :=
  match e with
  | Except.ok _ => true
  | Except.error _ => false

/-! ## Concrete schema used by witnesses and counterexamples -/

def exRunFunc : Function :=
  ⟨"run", FunctionKind.freestanding, [], none, ⟨none⟩⟩

def exCtx : ScalaContext := ⟨⟨"com.example", none⟩, none⟩

def exResolve : Resolve :=
  ⟨[⟨some "cnt", TypeDefKind.resource, TypeOwner.interface 1, ⟨none⟩⟩,
    ⟨some "pt", TypeDefKind.record [⟨"x", WitType.s32⟩, ⟨"y", WitType.s32⟩],
      TypeOwner.interface 0, ⟨none⟩⟩,
    ⟨some "st", TypeDefKind.stream none, TypeOwner.interface 0, ⟨none⟩⟩,
    ⟨some "foo", TypeDefKind.record [], TypeOwner.interface 2, ⟨none⟩⟩],
   [⟨some "ifc", [("pt", 1)], [("run", exRunFunc)], some 0, ⟨none⟩⟩,
    ⟨some "resifc", [("cnt", 0)], [], some 0, ⟨none⟩⟩,
    ⟨some "bare", [], [], none, ⟨none⟩⟩],
   [⟨⟨"a", "b", none⟩⟩],
   [⟨"w", [("f", WorldItem.functionItem exRunFunc)], []⟩]⟩

/-- `isResourceKind` of the typedef stored at an id (false on a dangling id). -/
def isResourceAt (resolve : Resolve) (i : Nat) : Bool :=
  match resolve.types.get? i with
  | some t => isResourceKind t.kind
  | none => false

/-- The 13 primitive kinds of the schema type language, in the order of the
`render_primitive_type` match. -/
def primitiveTypesList : List WitType :=
  [WitType.bool, WitType.s8, WitType.u8, WitType.s16, WitType.u16,
   WitType.s32, WitType.u32, WitType.s64, WitType.u64,
   WitType.f32, WitType.f64, WitType.char, WitType.string]

/-- First line of an output fragment (up to the first newline). -/
def firstLineStr (s : String) : String :=
  String.mk (s.data.takeWhile (fun c => !(c == '\n')))

/-- The line list the specification describes for formatted documentation:
first line behind the doc opener, blank lines as a bare continuation marker,
other lines behind a continuation marker, then the closing marker. -/
def specDocLines (indent : Nat) : List String → List String
  | [] => []
  | l0 :: rest =>
    (indentString indent ++ "/** " ++ l0)
      :: (rest.map (fun l =>
            if rustTrim l = "" then indentString indent ++ " *"
            else indentString indent ++ " *  " ++ l)
          ++ [indentString indent ++ " */"])

end Wit

namespace Wit

/-! ## Helper lemmas -/

theorem str_if_empty (s : String) : (if s = "" then "" else s) = s := by
  split
  · simp_all
  · rfl

theorem strMk_data (s : String) : String.mk s.data = s := rfl

theorem data_strMk (l : List Char) : (String.mk l).data = l := rfl

theorem splitOnPred_ne_nil (p : Char → Bool) : ∀ l, splitOnPred p l ≠ []
  | [] => by simp [splitOnPred]
  | c :: cs => by
    have ih := splitOnPred_ne_nil p cs
    unfold splitOnPred
    split
    · simp
    · obtain ⟨h, t, ht⟩ := List.exists_cons_of_ne_nil ih
      rw [ht]
      simp

theorem mem_splitOnPred (p : Char → Bool) :
    ∀ l w, w ∈ splitOnPred p l → ∀ c ∈ w, p c = false ∧ c ∈ l
  | [], w, hw, c, hc => by
    simp [splitOnPred] at hw
    subst hw
    simp at hc
  | c0 :: cs, w, hw, c, hc => by
    unfold splitOnPred at hw
    split at hw
    · rcases List.mem_cons.mp hw with h | h
      · subst h; simp at hc
      · obtain ⟨hp, hm⟩ := mem_splitOnPred p cs w h c hc
        exact ⟨hp, List.mem_cons_of_mem _ hm⟩
    · obtain ⟨hh, tt, htt⟩ := List.exists_cons_of_ne_nil (splitOnPred_ne_nil p cs)
      rw [htt] at hw
      rcases List.mem_cons.mp hw with h | h
      · subst h
        rcases List.mem_cons.mp hc with h2 | h2
        · subst h2
          constructor
          · simp_all
          · exact List.mem_cons_self _ _
        · have hhm : hh ∈ splitOnPred p cs := by rw [htt]; exact List.mem_cons_self _ _
          obtain ⟨hp, hm⟩ := mem_splitOnPred p cs hh hhm c h2
          exact ⟨hp, List.mem_cons_of_mem _ hm⟩
      · have hwm : w ∈ splitOnPred p cs := by rw [htt]; exact List.mem_cons_of_mem _ h
        obtain ⟨hp, hm⟩ := mem_splitOnPred p cs w hwm c hc
        exact ⟨hp, List.mem_cons_of_mem _ hm⟩

theorem mem_splitCaseAux :
    ∀ (rest : List Char) (mode : WordMode) (acc : List Char) (c : Char)
      (w : List Char), w ∈ splitCaseAux mode acc c rest →
      ∀ x ∈ w, x ∈ acc ∨ x = c ∨ x ∈ rest
  | [], _, acc, c, w, hw, x, hx => by
    simp [splitCaseAux] at hw
    subst hw
    rcases List.mem_append.mp hx with h | h
    · exact Or.inl h
    · simp at h
      exact Or.inr (Or.inl h)
  | next :: rest', mode, acc, c, w, hw, x, hx => by
    unfold splitCaseAux at hw
    split at hw
    · rcases List.mem_cons.mp hw with h | h
      · subst h
        rcases List.mem_append.mp hx with h2 | h2
        · exact Or.inl h2
        · simp at h2
          exact Or.inr (Or.inl h2)
      · rcases mem_splitCaseAux rest' WordMode.boundary [] next w h x hx with h2 | h2 | h2
        · simp at h2
        · exact Or.inr (Or.inr (by simp [h2]))
        · exact Or.inr (Or.inr (by simp [h2]))
    · split at hw
      · rcases List.mem_cons.mp hw with h | h
        · subst h
          exact Or.inl hx
        · rcases mem_splitCaseAux rest' WordMode.boundary [c] next w h x hx with h2 | h2 | h2
          · simp at h2
            exact Or.inr (Or.inl h2)
          · exact Or.inr (Or.inr (by simp [h2]))
          · exact Or.inr (Or.inr (by simp [h2]))
      · rcases mem_splitCaseAux rest' _ (acc ++ [c]) next w hw x hx with h2 | h2 | h2
        · rcases List.mem_append.mp h2 with h3 | h3
          · exact Or.inl h3
          · simp at h3
            exact Or.inr (Or.inl h3)
        · exact Or.inr (Or.inr (by simp [h2]))
        · exact Or.inr (Or.inr (by simp [h2]))

theorem mem_splitCase (l w : List Char) (hw : w ∈ splitCase l) :
    ∀ x ∈ w, x ∈ l := by
  intro x hx
  match l with
  | [] => simp [splitCase] at hw
  | c :: cs =>
    rcases mem_splitCaseAux cs WordMode.boundary [] c w hw x hx with h | h | h
    · simp at h
    · simp [h]
    · exact List.mem_cons_of_mem _ h

theorem mem_caseWords (l w : List Char) (hw : w ∈ caseWords l) :
    ∀ x ∈ w, x.isAlphanum = true := by
  intro x hx
  obtain ⟨seg, hseg, hwseg⟩ := List.mem_flatMap.mp hw
  have hx2 := mem_splitCase seg w hwseg x hx
  have := (mem_splitOnPred _ l seg hseg x hx2).1
  simpa using this

theorem asciiToLower_alnum (c : Char) (h : c.isAlphanum = true) :
    (asciiToLower c).isAlphanum = true := by
  unfold asciiToLower
  cases hf : asciiLowerPairs.find? (fun p => p.1 == c) with
  | none => simpa using h
  | some pr =>
    have hmem := List.mem_of_find?_eq_some hf
    have hall : asciiLowerPairs.all (fun p => p.2.isAlphanum) = true := by decide
    have := List.all_eq_true.mp hall pr hmem
    simpa using this

theorem asciiToUpper_alnum (c : Char) (h : c.isAlphanum = true) :
    (asciiToUpper c).isAlphanum = true := by
  unfold asciiToUpper
  cases hf : asciiLowerPairs.find? (fun p => p.2 == c) with
  | none => simpa using h
  | some pr =>
    have hmem := List.mem_of_find?_eq_some hf
    have hall : asciiLowerPairs.all (fun p => p.1.isAlphanum) = true := by decide
    have := List.all_eq_true.mp hall pr hmem
    simpa using this

theorem mem_joinSep (sep : String) :
    ∀ (ws : List String) (c : Char), c ∈ (joinSep sep ws).data →
      c ∈ sep.data ∨ ∃ w ∈ ws, c ∈ w.data
  | [], c, hc => by simp [joinSep] at hc
  | [x], c, hc => by
    simp only [joinSep] at hc
    exact Or.inr ⟨x, by simp, hc⟩
  | x :: y :: xs, c, hc => by
    simp only [joinSep, String.data_append, List.mem_append] at hc
    rcases hc with (h | h) | h
    · exact Or.inr ⟨x, by simp, h⟩
    · exact Or.inl h
    · rcases mem_joinSep sep (y :: xs) c h with h2 | ⟨w, hw, hcw⟩
      · exact Or.inl h2
      · exact Or.inr ⟨w, List.mem_cons_of_mem _ hw, hcw⟩

theorem mem_capitalizeWord (w : List Char) (c : Char) (hc : c ∈ capitalizeWord w) :
    ∃ x ∈ w, c = asciiToUpper x ∨ c = asciiToLower x := by
  match w with
  | [] => simp [capitalizeWord] at hc
  | y :: ys =>
    simp only [capitalizeWord, List.mem_cons] at hc
    rcases hc with h | h
    · exact ⟨y, by simp, Or.inl h⟩
    · obtain ⟨x, hx, hxe⟩ := List.mem_map.mp h
      exact ⟨x, List.mem_cons_of_mem _ hx, Or.inr hxe.symm⟩

/-- Every character of a snake_cased identifier is an underscore or
alphanumeric. -/
theorem toSnakeCase_chars (s : String) :
    ∀ c ∈ (toSnakeCase s).data, c = '_' ∨ c.isAlphanum = true := by
  intro c hc
  rcases mem_joinSep "_" _ c hc with h | ⟨w, hw, hcw⟩
  · left
    simpa using h
  · right
    obtain ⟨w', hw', hwe⟩ := List.mem_map.mp hw
    rw [← hwe] at hcw
    simp only [data_strMk, lowerWord] at hcw
    obtain ⟨x, hx, hxe⟩ := List.mem_map.mp hcw
    rw [← hxe]
    exact asciiToLower_alnum x (mem_caseWords s.data w' hw' x hx)

/-- Every character of a pascal-cased (and possibly backtick-escaped)
identifier is a backtick or alphanumeric. -/
theorem toPascalCase_chars (s : String) :
    ∀ c ∈ (toPascalCase s).data, c = '`' ∨ c.isAlphanum = true := by
  intro c hc
  have raw : ∀ c ∈ (toPascalCaseRaw s).data, c.isAlphanum = true := by
    intro c hc
    simp only [toPascalCaseRaw, data_strMk] at hc
    obtain ⟨w, hw, hcw⟩ := List.mem_flatMap.mp hc
    obtain ⟨x, hx, hxe⟩ := mem_capitalizeWord w c hcw
    rcases hxe with h | h
    · rw [h]; exact asciiToUpper_alnum x (mem_caseWords s.data w hw x hx)
    · rw [h]; exact asciiToLower_alnum x (mem_caseWords s.data w hw x hx)
  unfold toPascalCase escapeKeyword at hc
  split at hc
  · simp only [String.data_append, List.mem_append] at hc
    rcases hc with (h | h) | h
    · left; simpa using h
    · right; exact raw c h
    · left; simpa using h
  · right; exact raw c hc

theorem toSnakeCase_no_dot (s : String) :
    (toSnakeCase s).data.all (fun c => !(c == '.')) = true := by
  rw [List.all_eq_true]
  intro c hc
  rcases toSnakeCase_chars s c hc with h | h
  · subst h; decide
  · simp only [Bool.not_eq_true', beq_eq_false_iff_ne, ne_eq]
    intro he
    subst he
    simp at h

theorem toPascalCase_no_dot (s : String) :
    (toPascalCase s).data.all (fun c => !(c == '.')) = true := by
  rw [List.all_eq_true]
  intro c hc
  rcases toPascalCase_chars s c hc with h | h
  · subst h; decide
  · simp only [Bool.not_eq_true', beq_eq_false_iff_ne, ne_eq]
    intro he
    subst he
    simp at h

theorem basePackageSegments_no_dot (ctx : ScalaContext) :
    ∀ seg ∈ basePackageSegments ctx, seg.data.all (fun c => !(c == '.')) = true := by
  intro seg hseg
  rw [List.all_eq_true]
  intro c hc
  obtain ⟨w, hw, hwe⟩ := List.mem_map.mp hseg
  rw [← hwe] at hc
  simp only [data_strMk] at hc
  have := (mem_splitOnPred _ _ w hw c hc).1
  simpa using this

/-- Splitting at the separator recovers a separator-free chunk placed before
a separator. -/
theorem splitOnPred_chunk (p : Char → Bool) :
    ∀ (w rest : List Char), (∀ c ∈ w, p c = false) → p '\n' = true →
      splitOnPred p (w ++ '\n' :: rest) = w :: splitOnPred p rest
  | [], rest, _, hsep => by
    simp [splitOnPred, hsep]
  | c :: w', rest, hw, hsep => by
    have hc : p c = false := hw c (List.mem_cons_self _ _)
    have ih := splitOnPred_chunk p w' rest (fun x hx => hw x (List.mem_cons_of_mem _ hx)) hsep
    simp only [List.cons_append, splitOnPred, hc, Bool.false_eq_true, if_false,
      List.append_eq]
    rw [ih]

/-- Reassembling newline-terminated, newline-free lines and re-splitting them
yields the lines back (how the assembly loops see a fragment built line by
line). -/
theorem linesPlain_strConcat :
    ∀ ls : List String, (∀ l ∈ ls, ∀ c ∈ l.data, (c == '\n') = false) →
      linesPlain (strConcat (ls.map (fun l => l ++ "\n"))) = ls
  | [], _ => by simp [strConcat, linesPlain]
  | l0 :: ls', h => by
    have h0 : ∀ c ∈ l0.data, (fun c : Char => c == '\n') c = false :=
      fun c hc => h l0 (List.mem_cons_self _ _) c hc
    have hdata : (strConcat ((l0 :: ls').map (fun l => l ++ "\n"))).data
        = l0.data ++ '\n' :: (strConcat (ls'.map (fun l => l ++ "\n"))).data := by
      simp [strConcat, String.data_append]
    have hsplit := splitOnPred_chunk (fun c => c == '\n') l0.data
      (strConcat (ls'.map (fun l => l ++ "\n"))).data h0 (by decide)
    have ih := linesPlain_strConcat ls' (fun l hl => h l (List.mem_cons_of_mem _ hl))
    match ls' with
    | [] =>
      have hdatanil : (strConcat (([] : List String).map (fun l => l ++ "\n"))).data
          = ([] : List Char) := rfl
      rw [hdatanil] at hdata hsplit
      unfold linesPlain
      rw [hdata, if_neg (by simp), hsplit]
      simp [splitOnPred, strMk_data]
    | l1 :: ls'' =>
      have hinner_ne : (strConcat ((l1 :: ls'').map (fun l => l ++ "\n"))).data ≠ [] := by
        simp [strConcat, String.data_append]
      unfold linesPlain
      rw [hdata, if_neg (by simp), hsplit]
      unfold linesPlain at ih
      rw [if_neg hinner_ne] at ih
      obtain ⟨ph, pt, hpt⟩ := List.exists_cons_of_ne_nil
        (splitOnPred_ne_nil (fun c => c == '\n')
          (strConcat ((l1 :: ls'').map (fun l => l ++ "\n"))).data)
      rw [hpt] at ih ⊢
      rw [List.getLast?_cons_cons]
      cases hplast : (ph :: pt).getLast? with
      | none =>
        rw [List.getLast?_eq_none_iff] at hplast
        simp at hplast
      | some lastv =>
        cases lastv with
        | nil =>
          rw [hplast] at ih
          have hdl : (l0.data :: ph :: pt).dropLast = l0.data :: (ph :: pt).dropLast := by
            rfl
          rw [hdl, List.map_cons, strMk_data]
          rw [ih]
        | cons c cs =>
          rw [hplast] at ih
          rw [List.map_cons, strMk_data]
          rw [ih]

theorem strConcat_append : ∀ A B : List String, strConcat (A ++ B) = strConcat A ++ strConcat B
  | [], B => by simp [strConcat]
  | a :: A', B => by
    simp only [List.cons_append, strConcat, List.append_eq]
    rw [strConcat_append A' B, ← String.append_assoc]

theorem indentString_no_newline (indent : Nat) :
    ∀ c ∈ (indentString indent).data, (c == '\n') = false := by
  intro c hc
  simp only [indentString, data_strMk] at hc
  rw [List.eq_of_mem_replicate hc]
  decide

theorem mem_stripCR (w : List Char) (c : Char) (hc : c ∈ stripCR w) : c ∈ w := by
  unfold stripCR at hc
  split at hc
  · exact List.dropLast_subset _ hc
  · exact hc

/-- Every line produced by the model of Rust `str::lines` is newline-free. -/
theorem rustLines_no_newline (s : String) :
    ∀ l ∈ rustLines s, ∀ c ∈ l.data, (c == '\n') = false := by
  intro l hl c hc
  unfold rustLines at hl
  obtain ⟨w, hw, hwe⟩ := List.mem_map.mp hl
  rw [← hwe] at hc
  simp only [data_strMk] at hc
  unfold rustLinesChars at hw
  split at hw
  · simp at hw
  · obtain ⟨w', hw', hwe'⟩ := List.mem_map.mp hw
    rw [← hwe'] at hc
    have hcw' : c ∈ w' := mem_stripCR w' c hc
    have hw'' : w' ∈ splitOnPred (fun c => c == '\n') s.data := by
      split at hw'
      · exact List.dropLast_subset _ hw'
      · exact hw'
    exact (mem_splitOnPred _ _ w' hw'' c hcw').1

/-- The flag-constant loop unrolled: one line per flag, indices in declaration
order starting at `k`. -/
theorem flagValsAux_eq (name : String) :
    ∀ (fs : List Flag) (k : Nat),
      flagValsAux name fs k = strConcat ((List.enumFrom k fs).map
        (fun p => "  val " ++ toCamelCase p.2.name ++ " = " ++ name
          ++ "(1 << " ++ toString p.1 ++ ")\n"))
  | [], _ => rfl
  | f :: fs', k => by
    simp only [flagValsAux, List.enumFrom, List.map_cons, strConcat]
    rw [flagValsAux_eq name fs' (k + 1)]

/-- The parameter-list loops of `import_function` and `export_function` are
verbatim duplicates and render identically. -/
theorem exportParamList_eq_importParamList :
    ∀ ps : List (String × String), exportParamList ps = importParamList ps
  | [] => rfl
  | [_] => rfl
  | p :: q :: ps => by
    simp only [exportParamList, importParamList]
    rw [exportParamList_eq_importParamList (q :: ps)]

/-- A typedef that rendered successfully has a valid arena id. -/
theorem renderTypedef_ok_valid (ctx : ScalaContext) (resolve : Resolve)
    (fuel i : Nat) (h : isOkE (renderTypedef ctx resolve fuel i) = true) :
    ∃ t, resolve.types.get? i = some t := by
  unfold renderTypedef at h
  match hg : resolve.types.get? i with
  | some t => exact ⟨t, rfl⟩
  | none => rw [hg] at h; simp [isOkE] at h

/-- If every typedef of the list renders, the type-definitions loop
succeeds. -/
theorem collectTypedefs_ok (ctx : ScalaContext) (resolve : Resolve) (fuel : Nat) :
    ∀ (l : List (String × Nat)) (acc : List (String × String)),
      (l.all (fun p => isOkE (renderTypedef ctx resolve fuel p.2))) = true →
      ∃ r, collectTypedefs ctx resolve fuel l acc = Except.ok r
  | [], acc, _ => ⟨acc, rfl⟩
  | p :: ps, acc, h => by
    rw [List.all_cons, Bool.and_eq_true] at h
    match hr : renderTypedef ctx resolve fuel p.2 with
    | Except.error e => rw [hr] at h; simp [isOkE] at h
    | Except.ok typedef =>
      simp only [collectTypedefs, hr]
      split
      · exact collectTypedefs_ok ctx resolve fuel ps _ h.2
      · exact collectTypedefs_ok ctx resolve fuel ps _ h.2

/-- In export mode, the resources loop aborts at the first resource typedef
with the capability-gap message naming the resource and the interface. -/
theorem collectResources_export_error (ctx : ScalaContext) (resolve : Resolve)
    (fuel : Nat) (namespace_ interfaceName : String) :
    ∀ (l : List (String × Nat)) (acc : List (String × String)),
      (l.all (fun p => isOkE (renderTypedef ctx resolve fuel p.2))) = true →
      (l.any (fun p => isResourceAt resolve p.2)) = true →
      ∃ rn rid, (rn, rid) ∈ l ∧ isResourceAt resolve rid = true ∧
        collectResources ctx resolve fuel namespace_ interfaceName false l acc =
          Except.error ("Scala bindings do not support exporting resources. Resource '"
            ++ rn ++ "' in interface '" ++ interfaceName ++ "' cannot be exported.")
  | [], _, _, hany => by simp at hany
  | p :: ps, acc, hall, hany => by
    rw [List.all_cons, Bool.and_eq_true] at hall
    obtain ⟨t, ht⟩ := renderTypedef_ok_valid ctx resolve fuel p.2 hall.1
    by_cases hres : isResourceAt resolve p.2 = true
    · refine ⟨p.1, p.2, List.mem_cons_self _ _, hres, ?_⟩
      have hkind : t.kind = TypeDefKind.resource := by
        unfold isResourceAt at hres
        rw [ht] at hres
        cases hk : t.kind <;> simp [isResourceKind, hk] at hres ⊢
      simp only [collectResources, ht, hkind, Bool.false_eq_true, if_false]
    · have hany' : (ps.any (fun p => isResourceAt resolve p.2)) = true := by
        rw [List.any_cons] at hany
        simpa [hres] using hany
      obtain ⟨rn, rid, hmem, hridres, heq⟩ :=
        collectResources_export_error ctx resolve fuel namespace_ interfaceName ps acc
          hall.2 hany'
      refine ⟨rn, rid, List.mem_cons_of_mem _ hmem, hridres, ?_⟩
      have hkind : isResourceKind t.kind = false := by
        unfold isResourceAt at hres
        rw [ht] at hres
        simpa using hres
      cases hk : t.kind <;>
        simp only [collectResources, ht, hk] <;>
        first
          | exact heq
          | (rw [hk] at hkind; simp [isResourceKind] at hkind)

/-- A world-item list with no `Type` items leaves the world fold unchanged. -/
theorem worldItemsFold_noTypes (ctx : ScalaContext) (resolve : Resolve) (fuel : Nat) :
    ∀ (l : List (String × WorldItem)) (st : Bool × String),
      (l.all (fun p => !isTypeItem p.2)) = true →
      worldItemsFold ctx resolve fuel l st = Except.ok st
  | [], _, _ => rfl
  | p :: ps, st, h => by
    rw [List.all_cons, Bool.and_eq_true] at h
    have ih := worldItemsFold_noTypes ctx resolve fuel ps st h.2
    unfold worldItemsFold
    match hp : p.2 with
    | WorldItem.typeItem t => rw [hp] at h; simp [isTypeItem] at h
    | WorldItem.interfaceItem i => exact ih
    | WorldItem.functionItem f => exact ih

end Wit

/-! # The claims -/

open Wit

/-- Claim C5 (amended: there are 13 primitive kinds, not 14):
`render_primitive_type` is a pure total function on exactly the 13 primitive
kinds (bool, signed/unsigned 8/16/32/64-bit integers, two float widths, char,
string); it maps them to 13 pairwise-distinct target tokens, maps every
unsigned integer kind to a library wrapper type, and fails fast on every
non-primitive kind. -/
theorem renderPrimitiveType_total_injective_on_primitives :
    primitiveTypesList.length = 13
    ∧ (∀ t : WitType, isOkE (renderPrimitiveType t) = primitiveTypesList.contains t)
    ∧ (primitiveTypesList.map (fun t => (renderPrimitiveType t).toOption)).Nodup
    ∧ ([WitType.u8, WitType.u16, WitType.u32, WitType.u64].all (fun t =>
         match renderPrimitiveType t with
         | Except.ok s => startsWithStr "scala.scalajs.wit.unsigned." s
         | Except.error _ => false)) = true
    ∧ (∀ i : Nat, renderPrimitiveType (WitType.id i) = Except.error ("Not a primitive type"))
    ∧ renderPrimitiveType WitType.errorContext = Except.error ("Not a primitive type") := by
  refine ⟨by decide, ?_, by decide, by decide, ?_, rfl⟩
  · intro t
    cases t <;> rfl
  · intro i
    rfl

/-- Claim C5 counterexample: the primitive-kind domain of
`render_primitive_type` has 13 elements, not the 14 the claim states (the
claim's own enumeration — bool, 8 integer widths, 2 float widths, char,
string — has 13 entries). -/
theorem renderPrimitiveType_not_fourteen_kinds :
    (primitiveTypesList.map renderPrimitiveType).length = 13
    ∧ primitiveTypesList.length ≠ 14 := by
  decide

/-- Claim C6 (amended: snake_case results are never keyword-escaped): for the
camelCase and PascalCase transforms, keyword escaping is applied if and only
if the cased result exactly matches an entry of the reserved-word table, while
`to_snake_case` returns the raw snake_cased identifier unconditionally. -/
theorem caseConversion_keyword_escaping (name : String) :
    (isKeyword (toLowerCamelCaseRaw name) = true →
      toCamelCase name = "`" ++ toLowerCamelCaseRaw name ++ "`")
    ∧ (isKeyword (toLowerCamelCaseRaw name) = false →
      toCamelCase name = toLowerCamelCaseRaw name)
    ∧ (isKeyword (toPascalCaseRaw name) = true →
      toPascalCase name = "`" ++ toPascalCaseRaw name ++ "`")
    ∧ (isKeyword (toPascalCaseRaw name) = false →
      toPascalCase name = toPascalCaseRaw name)
    ∧ toSnakeCase name = toSnakeCaseRaw name := by
  refine ⟨fun h => ?_, fun h => ?_, fun h => ?_, fun h => ?_, rfl⟩
  · simp [toCamelCase, escapeKeyword, h]
  · simp [toCamelCase, escapeKeyword, h]
  · simp [toPascalCase, escapeKeyword, h]
  · simp [toPascalCase, escapeKeyword, h]

theorem caseConversion_keyword_escaping_witness :
    isKeyword (toLowerCamelCaseRaw ("match")) = true
    ∧ toCamelCase ("match") = "`" ++ toLowerCamelCaseRaw ("match") ++ "`"
    ∧ isKeyword (toPascalCaseRaw ("match")) = false
    ∧ toPascalCase ("match") = toPascalCaseRaw ("match") :=
  ⟨by decide,
   (caseConversion_keyword_escaping ("match")).1 (by decide),
   by decide,
   (caseConversion_keyword_escaping ("match")).2.2.2.1 (by decide)⟩

/-- Claim C6 counterexample: `to_snake_case("match")` is the reserved word
`match`, yet no keyword escaping is applied — refuting the claim for the
snake_case transform. -/
theorem toSnakeCase_keyword_not_escaped :
    isKeyword (toSnakeCase ("match")) = true
    ∧ toSnakeCase ("match") = "match"
    ∧ toSnakeCase ("match") ≠ "`" ++ "match" ++ "`" := by
  decide

/-- Claim C7: a Flags declaration with N named flags emits exactly one named
bit constant per flag, in declaration order, at positions `1 << 0 … 1 << (N-1)`
(that is, values 2^0 … 2^(N-1)); its annotation carries the flag count N as
its single integer argument, and the wrapper exposes the `contains` predicate
`(value & other.value) == other.value`. -/
theorem renderFlags_bit_constants (name : String) (fs : List Flag) (typeDocs : Docs) :
    (renderFlags name fs typeDocs
      = formatDocs typeDocs
        ++ componentFlags fs.length ++ "\n"
        ++ "final case class " ++ name ++ "(value: Int) \x7b\n"
        ++ "  def |(other: " ++ name ++ "): " ++ name ++ " = " ++ name ++ "(value | other.value)\n"
        ++ "  def &(other: " ++ name ++ "): " ++ name ++ " = " ++ name ++ "(value & other.value)\n"
        ++ "  def ^(other: " ++ name ++ "): " ++ name ++ " = " ++ name ++ "(value ^ other.value)\n"
        ++ "  def unary_~ : " ++ name ++ " = " ++ name ++ "(~value)\n"
        ++ "  def contains(other: " ++ name ++ "): Boolean = (value & other.value) == other.value\n"
        ++ "\x7d\n"
        ++ "object " ++ name ++ " \x7b\n"
        ++ strConcat ((List.enum fs).map (fun p =>
             "  val " ++ toCamelCase p.2.name ++ " = " ++ name
               ++ "(1 << " ++ toString p.1 ++ ")\n"))
        ++ "\x7d\n")
    ∧ (∀ i : Nat, (1 <<< i : Nat) = 2 ^ i) := by
  constructor
  · simp only [renderFlags, str_if_empty, flagValsAux_eq]
    rfl
  · exact fun i => Nat.one_shiftLeft i

/-- Claim C10: the interface file path and the interface package path are
derived from the same segment list — the file path joins the segments with
`/` where the package path joins them with `.` (no segment contains a dot),
and appends the snake_cased interface name plus the `.scala` extension. -/
theorem interfaceFilePath_agrees_with_packagePath
    (ctx : ScalaContext) (namespace_ interfaceName : String) (isImport : Bool) :
    ∃ segs : List String,
      getPackagePath ctx namespace_ isImport = joinSep "." segs
      ∧ getInterfaceFilePath ctx namespace_ interfaceName isImport
          = joinSep "/" segs ++ "/" ++ (toSnakeCase interfaceName ++ ".scala")
      ∧ segs.all (fun s => s.data.all (fun c => !(c == '.'))) = true := by
  have hbase : (basePackageSegments ctx).all
      (fun s => s.data.all (fun c => !(c == '.'))) = true :=
    List.all_eq_true.mpr (basePackageSegments_no_dot ctx)
  cases isImport with
  | true =>
    rcases hp : (splitOnPred (fun c => c == ':') namespace_.data).map String.mk with
      _ | ⟨p0, prest⟩
    · exact absurd (List.map_eq_nil_iff.mp hp) (splitOnPred_ne_nil _ _)
    · cases prest with
      | nil =>
        refine ⟨basePackageSegments ctx, ?_, ?_, hbase⟩
        · simp [getPackagePath, hp]
        · simp [getInterfaceFilePath, hp]
      | cons p1 prest' =>
        rcases hq : (splitOnPred (fun c => c == '/') p1.data).map String.mk with
          _ | ⟨q0, qrest⟩
        · exact absurd (List.map_eq_nil_iff.mp hq) (splitOnPred_ne_nil _ _)
        · refine ⟨basePackageSegments ctx
            ++ [toSnakeCase p0]
            ++ [toSnakeCase (((splitOnPred (fun c => c == '@') q0.data).map String.mk).headD q0)],
            ?_, ?_, ?_⟩
          · simp [getPackagePath, hp, hq]
          · simp [getInterfaceFilePath, hp, hq]
          · rw [List.all_append, List.all_append]
            simp only [List.all_cons, List.all_nil, Bool.and_true, Bool.and_eq_true]
            exact ⟨⟨hbase, toSnakeCase_no_dot _⟩, toSnakeCase_no_dot _⟩
  | false =>
    rcases hp : (splitOnPred (fun c => c == ':') namespace_.data).map String.mk with
      _ | ⟨p0, prest⟩
    · exact absurd (List.map_eq_nil_iff.mp hp) (splitOnPred_ne_nil _ _)
    · cases prest with
      | nil =>
        refine ⟨basePackageSegments ctx ++ ["exports"], ?_, ?_, ?_⟩
        · simp [getPackagePath, hp]
        · simp [getInterfaceFilePath, hp]
        · rw [List.all_append]
          simp only [List.all_cons, List.all_nil, Bool.and_true, Bool.and_eq_true]
          exact ⟨hbase, by decide⟩
      | cons p1 prest' =>
        rcases hq : (splitOnPred (fun c => c == '/') p1.data).map String.mk with
          _ | ⟨q0, qrest⟩
        · exact absurd (List.map_eq_nil_iff.mp hq) (splitOnPred_ne_nil _ _)
        · refine ⟨basePackageSegments ctx ++ ["exports"]
            ++ [toSnakeCase p0]
            ++ [toSnakeCase (((splitOnPred (fun c => c == '@') q0.data).map String.mk).headD q0)],
            ?_, ?_, ?_⟩
          · simp [getPackagePath, hp, hq]
          · simp [getInterfaceFilePath, hp, hq]
          · rw [List.all_append, List.all_append, List.all_append]
            simp only [List.all_cons, List.all_nil, Bool.and_true, Bool.and_eq_true]
            exact ⟨⟨⟨hbase, by decide⟩, toSnakeCase_no_dot _⟩, toSnakeCase_no_dot _⟩

/-- Claim C3 (amended: only the type-expression renderer degrades; the typedef
renderer fails fast): for a typedef of stream, future or unknown kind,
`render_type_id` renders the placeholder token `"Unknown"` and never fails,
while `render_typedef` on the same typedef aborts (a panic in the source). -/
theorem unrepresentable_kinds_placeholder (ctx : ScalaContext) (resolve : Resolve)
    (fuel i : Nat) (ty : TypeDef)
    (hty : resolve.types.get? i = some ty)
    (hk : isUnrepresentableKind ty.kind = true) :
    renderTypeId ctx resolve fuel i = Except.ok ("Unknown")
    ∧ ∃ e, renderTypedef ctx resolve fuel i = Except.error e := by
  constructor
  · cases hkk : ty.kind <;>
      (try (rw [hkk] at hk; simp [isUnrepresentableKind] at hk)) <;>
      simp only [renderTypeId, renderTypeIdWith, hty, hkk]
  · cases hn : ty.name with
    | none => exact ⟨"Type must have a name", by simp only [renderTypedef, hty, hn]⟩
    | some nm =>
      cases hkk : ty.kind <;>
        (try (rw [hkk] at hk; simp [isUnrepresentableKind] at hk)) <;>
        exact ⟨"Unsupported type", by simp only [renderTypedef, hty, hn, hkk]⟩

theorem unrepresentable_kinds_placeholder_witness :
    renderTypeId exCtx exResolve 1 2 = Except.ok ("Unknown")
    ∧ ∃ e, renderTypedef exCtx exResolve 1 2 = Except.error e :=
  unrepresentable_kinds_placeholder exCtx exResolve 1 2
    ⟨some "st", TypeDefKind.stream none, TypeOwner.interface 0, ⟨none⟩⟩
    (by rfl) (by decide)

/-- Claim C3 counterexample: the typedef (declaration) renderer does not
degrade a stream-kinded typedef to the `"Unknown"` placeholder — it aborts
with an error, so generation of the surrounding declaration does not
complete. -/
theorem renderTypedef_fails_on_stream :
    renderTypedef exCtx exResolve 1 2 = Except.error ("Unsupported type")
    ∧ (∀ s, renderTypedef exCtx exResolve 1 2 ≠ Except.ok s) := by
  refine ⟨rfl, fun s h => ?_⟩
  rw [show renderTypedef exCtx exResolve 1 2 = Except.error ("Unsupported type") from rfl] at h
  exact Except.noConfusion h

/-- Claim C2 (amended: the fully qualified path is produced only when the
owning interface carries a package; an owner interface without a package — and
a context with no current interface — fall back to the bare name): rendering a
reference to a named typedef owned by the current interface yields the bare
PascalCase name, which contains no path separator; rendering a reference owned
by a different interface that has a package yields the dot-joined path
`base-package ++ snake(namespace) ++ snake(package) ++ snake(interface)`
ending in the PascalCase type name. -/
theorem renderTypeId_qualification (ctx : ScalaContext) (resolve : Resolve)
    (fuel i : Nat) (ty : TypeDef) (nm : String) (own cur : Nat)
    (hty : resolve.types.get? i = some ty)
    (hkind : isNamedKind ty.kind = true)
    (hnm : ty.name = some nm)
    (hown : ty.owner = TypeOwner.interface own)
    (hcur : ctx.currentInterface = some cur) :
    (own = cur →
      renderTypeId ctx resolve fuel i = Except.ok (toPascalCase nm)
      ∧ (toPascalCase nm).data.all (fun c => !(c == '.')) = true)
    ∧ (own ≠ cur → ∀ (ownIface : Interface) (inm : String) (pid : Nat) (pkg : Package),
        resolve.interfaces.get? own = some ownIface →
        ownIface.name = some inm →
        ownIface.package = some pid →
        resolve.packages.get? pid = some pkg →
        renderTypeId ctx resolve fuel i =
          Except.ok (joinSep "." (basePackageSegments ctx
            ++ [toSnakeCase pkg.name.nspace, toSnakeCase pkg.name.name,
                toSnakeCase inm, toPascalCase nm]))) := by
  have hred : renderTypeId ctx resolve fuel i = getQualifiedTypeName ctx resolve i nm := by
    cases hkk : ty.kind <;>
      (try (rw [hkk] at hkind; simp [isNamedKind] at hkind)) <;>
      simp only [renderTypeId, renderTypeIdWith, hty, hkk, hnm]
  constructor
  · intro heq
    subst heq
    refine ⟨?_, toPascalCase_no_dot nm⟩
    rw [hred]
    simp only [getQualifiedTypeName, hty, hown, hcur]
    rw [if_neg (by simp)]
  · intro hne ownIface inm pid pkg h3 h4 h5 h6
    rw [hred]
    simp only [getQualifiedTypeName, hty, hown, hcur]
    rw [if_pos hne]
    simp only [h3, h4, h5, h6]

theorem renderTypeId_qualification_witness :
    (renderTypeId { exCtx with currentInterface := some 0 } exResolve 1 1
        = Except.ok (toPascalCase ("pt"))
      ∧ (toPascalCase ("pt")).data.all (fun c => !(c == '.')) = true)
    ∧ renderTypeId { exCtx with currentInterface := some 1 } exResolve 1 1
        = Except.ok (joinSep "." (basePackageSegments { exCtx with currentInterface := some 1 }
            ++ [toSnakeCase ("a"), toSnakeCase ("b"), toSnakeCase ("ifc"), toPascalCase ("pt")])) :=
  ⟨(renderTypeId_qualification { exCtx with currentInterface := some 0 } exResolve 1 1
      ⟨some "pt", TypeDefKind.record [⟨"x", WitType.s32⟩, ⟨"y", WitType.s32⟩],
        TypeOwner.interface 0, ⟨none⟩⟩ "pt" 0 0
      (by rfl) (by decide) (by rfl) (by rfl) (by rfl)).1 rfl,
   (renderTypeId_qualification { exCtx with currentInterface := some 1 } exResolve 1 1
      ⟨some "pt", TypeDefKind.record [⟨"x", WitType.s32⟩, ⟨"y", WitType.s32⟩],
        TypeOwner.interface 0, ⟨none⟩⟩ "pt" 0 1
      (by rfl) (by decide) (by rfl) (by rfl) (by rfl)).2 (by decide)
      ⟨some "ifc", [("pt", 1)], [("run", exRunFunc)], some 0, ⟨none⟩⟩ "ifc" 0 ⟨⟨"a", "b", none⟩⟩
      (by rfl) (by rfl) (by rfl) (by rfl)⟩

/-- Claim C2 counterexample: the typedef `foo` (arena id 3) is owned by
interface 2, the current interface is interface 0, yet the rendered reference
is the bare name `"Foo"` — not a dot-joined path — because interface 2 has no
owning package.  This refutes the claim's unconditional "owned by any other
interface always yields a package-qualified path". -/
theorem renderTypeId_bare_name_without_package :
    ((exResolve.types.get? 3).map TypeDef.owner = some (TypeOwner.interface 2))
    ∧ ({ exCtx with currentInterface := some 0 } : ScalaContext).currentInterface = some 0
    ∧ (2 : Nat) ≠ 0
    ∧ renderTypeId { exCtx with currentInterface := some 0 } exResolve 1 3
        = Except.ok ("Foo")
    ∧ ("Foo" : String).data.all (fun c => !(c == '.')) = true := by
  refine ⟨rfl, rfl, by decide, rfl, by decide⟩

/-- Claim C4 (amended: the two fragments additionally differ in their package
path — the export path carries an extra `exports` segment — and in the
enclosing construct, a `package object` for imports versus an annotated
`trait` for exports): at the function level, the import- and export-mode
renderings share the documentation and an identical `def name(params): Result`
signature and differ exactly in the annotation family (`WitImport` versus
`WitExport`) and in the trailing native marker, which only the import carries;
export functions are bodiless signatures. -/
theorem importExport_function_relation (namespace_ witName scalaName : String)
    (params : List (String × String)) (returnType : Option String) (docs : String) :
    ∃ sig : String,
      importFunction namespace_ witName scalaName params returnType docs
        = docs ++ componentImport namespace_ witName ++ "\n"
          ++ sig ++ " = " ++ nativeMarker ++ "\n"
      ∧ exportFunction namespace_ witName scalaName params returnType docs
        = docs ++ componentExport namespace_ witName ++ "\n" ++ sig ++ "\n" := by
  refine ⟨"def " ++ scalaName ++ "(" ++ importParamList params ++ ")"
    ++ (match returnType with
        | some ret => ": " ++ ret
        | none => ": Unit"), ?_, ?_⟩
  · unfold importFunction
    rw [str_if_empty]
    cases returnType <;> (simp [String.append_assoc]; try rfl)
  · unfold exportFunction
    rw [str_if_empty, exportParamList_eq_importParamList]
    cases returnType <;> (simp [String.append_assoc]; try rfl)

/-- Claim C4 counterexample: rendering the same interface in import and in
export mode yields fragments whose very first lines — the package headers,
which contain no annotation (no `@`) and no native marker — already differ
(the export path carries an extra `exports` segment), so the two fragments do
not differ *only* in annotation family and native marker. -/
theorem importExport_interface_headers_differ :
    Except.map firstLineStr (renderInterface exCtx exResolve 2 0 "a:b/ifc" true)
      = Except.ok ("package com.example.a.b")
    ∧ Except.map firstLineStr (renderInterface exCtx exResolve 2 0 "a:b/ifc" false)
      = Except.ok ("package com.example.exports.a.b")
    ∧ ("package com.example.a.b" : String) ≠ ("package com.example.exports.a.b" : String)
    ∧ ("package com.example.a.b" : String).data.all (fun c => !(c == '@')) = true
    ∧ ("package com.example.exports.a.b" : String).data.all (fun c => !(c == '@')) = true
    ∧ containsSub nativeMarker.data ("package com.example.a.b" : String).data = false
    ∧ containsSub nativeMarker.data ("package com.example.exports.a.b" : String).data = false :=
  ⟨rfl, rfl, by decide, by decide, by decide, by decide, by decide⟩

/-- Claim C8 (amended: the formatter first trims the documentation text, so
the structure reproduced is that of the *trimmed* text, and an all-whitespace
text produces no output): for documentation whose trimmed content is
non-empty, the emitted fragment consists, line for line, of the first content
line behind the doc-opening marker, each further blank line as a bare
continuation marker, each further non-blank line behind a continuation
marker, and a final closing marker. -/
theorem formatDocs_line_structure (docs : Docs) (indent : Nat)
    (h : rustTrim (docs.contents.getD "") ≠ "") :
    linesPlain (formatDocsWithIndent docs indent)
      = specDocLines indent (rustLines (rustTrim (docs.contents.getD ""))) := by
  cases hl : rustLines (rustTrim (docs.contents.getD "")) with
  | nil =>
    have hform : formatDocsWithIndent docs indent = "" := by
      simp only [formatDocsWithIndent]
      rw [if_neg h, hl]
    rw [hform]
    simp [specDocLines, linesPlain]
  | cons l0 rest =>
    have hfun : (fun l => (if rustTrim l = "" then indentString indent ++ " *"
          else indentString indent ++ " *  " ++ l) ++ "\n")
        = (fun line => if rustTrim line = "" then indentString indent ++ " *\n"
          else indentString indent ++ " *  " ++ line ++ "\n") := by
      funext l
      split <;> simp [String.append_assoc]
    have hform : formatDocsWithIndent docs indent
        = strConcat ((specDocLines indent (l0 :: rest)).map (fun l => l ++ "\n")) := by
      simp only [formatDocsWithIndent]
      rw [if_neg h, hl]
      simp only [specDocLines, List.map_cons, List.map_append, List.map_map,
        List.map_nil, strConcat_append, strConcat, Function.comp_def, hfun]
      simp [String.append_assoc]
    rw [hform, ← hl]
    apply linesPlain_strConcat
    intro l hllm c hc
    rw [hl] at hllm
    simp only [specDocLines, List.mem_cons, List.mem_append, List.mem_map] at hllm
    rcases hllm with hline | hmid | hlast
    · subst hline
      simp only [String.data_append, List.mem_append] at hc
      rcases hc with (hc | hc) | hc
      · exact indentString_no_newline indent c hc
      · exact (by decide : ∀ x ∈ ("/** " : String).data, (x == '\n') = false) c hc
      · exact rustLines_no_newline _ l0 (by rw [hl]; exact List.mem_cons_self _ _) c hc
    · obtain ⟨lm, hlm, hlme⟩ := hmid
      rw [← hlme] at hc
      split at hc <;>
        (try simp only [String.data_append, List.mem_append] at hc)
      · rcases hc with hc | hc
        · exact indentString_no_newline indent c hc
        · exact (by decide : ∀ x ∈ (" *" : String).data, (x == '\n') = false) c hc
      · rcases hc with (hc | hc) | hc
        · exact indentString_no_newline indent c hc
        · exact (by decide : ∀ x ∈ (" *  " : String).data, (x == '\n') = false) c hc
        · exact rustLines_no_newline _ lm
            (by rw [hl]; exact List.mem_cons_of_mem _ hlm) c hc
    · rcases hlast with hlast | hlast
      swap
      · simp at hlast
      subst hlast
      simp only [String.data_append, List.mem_append] at hc
      rcases hc with hc | hc
      · exact indentString_no_newline indent c hc
      · exact (by decide : ∀ x ∈ (" */" : String).data, (x == '\n') = false) c hc

theorem formatDocs_line_structure_witness :
    linesPlain (formatDocsWithIndent ⟨some ("hello\n\nworld")⟩ 1)
      = specDocLines 1 (rustLines (rustTrim ((some ("hello\n\nworld") : Option String).getD ""))) :=
  formatDocs_line_structure ⟨some ("hello\n\nworld")⟩ 1 (by decide)

/-- Claim C8 counterexample: the documentation text `" "` is non-empty, yet
the formatter emits nothing at all — no doc-opening marker, no closing
marker — because the text is trimmed first. -/
theorem formatDocs_empty_on_whitespace :
    (" " : String) ≠ ""
    ∧ formatDocsWithIndent ⟨some (" ")⟩ 0 = ""
    ∧ containsSub ("/**" : String).data (formatDocsWithIndent ⟨some (" ")⟩ 0).data = false :=
  ⟨by decide, rfl, by decide⟩

/-- Claim C9: `render_world` emits only world items of kind `Type`, so a world
whose imports contain no type items — for example only functions — produces no
world file (`render_world` returns `none`), even though `import_funcs` records
that world-level imports exist. -/
theorem renderWorld_skips_functions (ctx : ScalaContext) (resolve : Resolve)
    (fuel worldId : Nat) (world : World) (st : ScalaState)
    (funcs : List (String × Function))
    (hw : resolve.worlds.get? worldId = some world)
    (hno : (world.imports.all (fun p => !isTypeItem p.2)) = true) :
    renderWorld ctx resolve fuel worldId true = Except.ok none
    ∧ (funcs.isEmpty = false → (importFuncs st funcs).hasWorldImports = true) := by
  constructor
  · have hfold := worldItemsFold_noTypes ctx resolve fuel world.imports (false, "") hno
    simp only [renderWorld, hw]
    rw [if_pos trivial, hfold]
    rfl
  · intro hne
    simp [importFuncs, hne]

theorem renderWorld_skips_functions_witness :
    renderWorld exCtx exResolve 1 0 true = Except.ok none
    ∧ (importFuncs ⟨false, false⟩ [("f", exRunFunc)]).hasWorldImports = true :=
  ⟨(renderWorld_skips_functions exCtx exResolve 1 0
      ⟨"w", [("f", WorldItem.functionItem exRunFunc)], []⟩ ⟨false, false⟩
      [("f", exRunFunc)] (by rfl) (by decide)).1,
   (renderWorld_skips_functions exCtx exResolve 1 0
      ⟨"w", [("f", WorldItem.functionItem exRunFunc)], []⟩ ⟨false, false⟩
      [("f", exRunFunc)] (by rfl) (by decide)).2 (by decide)⟩

/-- Claim C1: rendering an interface in export mode aborts with an error — no
output fragment is produced — as soon as its types contain a Resource typedef
(provided the schema is otherwise well-formed: the interface is named and its
typedefs render), and the error message names both the offending resource and
the owning interface. -/
theorem renderInterface_export_resource_fails (ctx0 : ScalaContext) (resolve : Resolve)
    (fuel interfaceId : Nat) (iface : Interface) (interfaceName namespace_ : String)
    (hif : resolve.interfaces.get? interfaceId = some iface)
    (hname : iface.name = some interfaceName)
    (hok : (iface.types.all (fun p =>
      isOkE (renderTypedef { ctx0 with currentInterface := some interfaceId }
        resolve fuel p.2))) = true)
    (hres : (iface.types.any (fun p => isResourceAt resolve p.2)) = true) :
    ∃ (resourceName : String) (resourceId : Nat),
      (resourceName, resourceId) ∈ iface.types
      ∧ isResourceAt resolve resourceId = true
      ∧ renderInterface ctx0 resolve fuel interfaceId namespace_ false
          = Except.error ("Scala bindings do not support exporting resources. Resource '"
              ++ resourceName ++ "' in interface '" ++ interfaceName
              ++ "' cannot be exported.") := by
  obtain ⟨g, hg⟩ := collectTypedefs_ok { ctx0 with currentInterface := some interfaceId }
    resolve fuel iface.types [] hok
  obtain ⟨rn, rid, hmem, hrid, herr⟩ := collectResources_export_error
    { ctx0 with currentInterface := some interfaceId } resolve fuel namespace_
    interfaceName iface.types [] hok hres
  refine ⟨rn, rid, hmem, hrid, ?_⟩
  simp only [renderInterface, hif, hname, hg, herr]

theorem renderInterface_export_resource_fails_witness :
    ∃ (resourceName : String) (resourceId : Nat),
      (resourceName, resourceId) ∈
        (⟨some "resifc", [("cnt", 0)], [], some 0, ⟨none⟩⟩ : Interface).types
      ∧ isResourceAt exResolve resourceId = true
      ∧ renderInterface exCtx exResolve 1 1 "a:b/resifc" false
          = Except.error ("Scala bindings do not support exporting resources. Resource '"
              ++ resourceName ++ "' in interface '" ++ "resifc"
              ++ "' cannot be exported.") :=
  renderInterface_export_resource_fails exCtx exResolve 1 1
    ⟨some "resifc", [("cnt", 0)], [], some 0, ⟨none⟩⟩ "resifc" "a:b/resifc"
    (by rfl) (by rfl) (by decide) (by decide)
